import Mathlib

/-! Verification development for the Hindsight Experience Replay (HER) buffer of
`stable_baselines3/her/her_replay_buffer.py` (classes `HerReplayBuffer` and
`VecHerReplayBuffer`).

Shallow-embedding conventions:
* numpy float arrays hold exact integers (`ℤ`): every finite set of IEEE
  float values scales to integers by a common power of two, preserving the
  sums and comparisons the code performs; `done` flags are stored as the
  numeric value the code writes (`done * (1 - truncated)`).
* `her_ratio = 1 - 1 / (n_sampled_goal + 1)` and `int(her_ratio * batch_size)`
  are modelled in exact rational arithmetic, i.e. `⌊B·n/(n+1)⌋`.
* all sources of randomness (`np.random.randint`, `desired_goal_storage.sample`)
  are passed in as explicit draw oracles (`Draws`); theorems constrain the
  draws exactly by the bounds the corresponding `randint` call guarantees.
* Python runtime failures (failing `assert` statements, `UnboundLocalError`
  for a local variable that is only assigned on the other branch of the
  function, `TypeError`, `KeyError`, `ValueError`) are `Except.error` values.
* observation, action, goal and info payloads are abstract types `O`, `A`,
  `G`, `I`; observation normalisation with `env = None` is the identity.
-/

namespace HerSpec

/-- Modelled from the spec: the goal-selection strategy enumeration.  The
module `stable_baselines3/her/goal_selection_strategy.py` is not among the
sources; spec sections 4.2 and 6 list the variants
final / future / episode / episode_past_desired / episode_past_desired_success
(an `Enum`, so a Python `bool` is never an instance of it). -/
inductive GoalSelectionStrategy where
  | final
  | future
  | episode
  | pastDesired
  | pastDesiredSuccess
deriving DecidableEq

/-- Modelled from the spec: the `KEY_TO_GOAL_STRATEGY` lookup table mapping the
configuration strings of spec section 6 to the enumeration. -/
def keyToGoalStrategy (s : String) : Option GoalSelectionStrategy :=
  if s = "final" then some .final
  else if s = "future" then some .future
  else if s = "episode" then some .episode
  else if s = "episode_past_desired" then some .pastDesired
  else if s = "episode_past_desired_success" then some .pastDesiredSuccess
  else none

/-- Python runtime failures surfaced by the embedded code. -/
inductive PyErr where
  | assertionError (msg : String)
  | unboundLocalError (name : String)
  | valueError (msg : String)
  | typeError (msg : String)
  | keyError (key : String)
deriving DecidableEq

/-- One stored step of an episode slot: the per-step record held by
`self._buffer` (all nine keys) together with the per-step entry of
`self.info_buffer`.  The singleton numpy axis of each field is dropped. -/
structure StoredStep (O A G I : Type) where
  observation : O
  achievedGoal : G
  desiredGoal : G
  action : A
  reward : ℤ
  done : ℤ
  nextObs : O
  nextAchievedGoal : G
  nextDesiredGoal : G
  info : I
deriving DecidableEq

/-- The arguments of one `add` call (one transition), with the raw `done`
signal as a boolean (the truth value of the one-element numpy array). -/
structure AddInput (O A G I : Type) where
  observation : O
  achievedGoal : G
  desiredGoal : G
  nextObs : O
  nextAchievedGoal : G
  nextDesiredGoal : G
  action : A
  reward : ℤ
  done : Bool
  info : I
deriving DecidableEq

/-- The mutable state of a `HerReplayBuffer`: the episode store
(`self._buffer` and `self.info_buffer` merged into `buf`), the episode length
bookkeeping and the ring-buffer cursors.  `buf` and `episodeLengths` are total
maps; only indices below `maxEpisodeStored` / the recorded episode length are
meaningful, exactly as in the numpy arrays. -/
structure HerState (O A G I : Type) where
  maxEpisodeStored : Nat
  maxEpisodeLength : Nat
  buf : Nat → Nat → StoredStep O A G I
  episodeLengths : Nat → Nat
  pos : Nat
  full : Bool
  currentIdx : Nat
  episodeSteps : Nat

/-- The configuration attributes of a `HerReplayBuffer` fixed at construction
that the sampling and storing code reads. -/
structure HerConfig where
  nSampledGoal : Nat
  nSampledGoalPreselection : Option Nat
  strategy : GoalSelectionStrategy
  onlineSampling : Bool
  handleTimeoutTermination : Bool
  modifyGoal : Bool

/-- Explicit oracles for every random draw appearing in `_sample_transitions`:
`epDraw i` is the i-th raw `np.random.randint` value of the episode selection,
`transDraw i` the i-th transition-index draw, `goalDraw j` the draw made inside
`sample_goals` for the j-th HER position (FUTURE / EPISODE strategies), and
`dgDraw j` the j-th goal returned by `desired_goal_storage.sample`
(PAST_DESIRED / PAST_DESIRED_SUCCESS strategies). -/
structure Draws (G : Type) where
  epDraw : Nat → Nat
  transDraw : Nat → Nat
  goalDraw : Nat → Nat
  dgDraw : Nat → G

/-- Property `n_episodes_stored`. -/
def nEpisodesStored {O A G I : Type} (s : HerState O A G I) : Nat :=
  if s.full then s.maxEpisodeStored else s.pos

/-- Method `size()`: `np.sum(self.episode_lengths)` over the array of
`max_episode_stored` entries. -/
def size {O A G I : Type} (s : HerState O A G I) : Nat :=
  ∑ i in Finset.range s.maxEpisodeStored, s.episodeLengths i

/-- Value of `int(self.her_ratio * batch_size)` where
`self.her_ratio = 1 - 1.0 / (n_sampled_goal + 1)`, in exact rational
arithmetic: `⌊B · n / (n + 1)⌋`. -/
def herCount (n B : Nat) : Nat := B * n / (n + 1)

/-- Episode-index selection of the online branch (`_sample_transitions` lines
324-330): when the store is full the raw draws lie in `[1, n_episodes_stored)`
and are shifted by `pos` modulo `n_episodes_stored`, so the in-progress slot
`pos` is excluded; otherwise the raw draws lie in `[0, n_episodes_stored)`. -/
def onlineEpisodeIndices {O A G I : Type} (s : HerState O A G I)
    (epDraw : Nat → Nat) (B : Nat) : List Nat :=
  if s.full then
    (List.range B).map (fun i => (epDraw i + s.pos) % nEpisodesStored s)
  else
    (List.range B).map epDraw

/-- Result of the episode/HER-index selection (lines 321-351): either the
online selection, or the offline selection together with the Python locals
`episode_length` and the effective `n_sampled_goal_preselection` — locals that
stay unbound on the online branch. -/
inductive Phase1Out where
  | onlineSel (eps her : List Nat)
  | offlineSel (eps her : List Nat) (episodeLength preselection : Nat)

/-- Offline resolution of the preselection count (lines 336-343): with
PAST_DESIRED_SUCCESS the attribute must be set, with any other strategy it
must be `None` and the local takes the value of the `n_sampled_goal`
parameter. -/
def resolvePreselection (cfg : HerConfig) (nsg : Nat) : Except PyErr Nat :=
  if cfg.strategy = .pastDesiredSuccess then
    match cfg.nSampledGoalPreselection with
    | none => .error (.assertionError
        "Using PAST_DESIRED_SUCCESS strategy, but n_sampled_goal_preselection not given")
    | some p => .ok p
  else
    match cfg.nSampledGoalPreselection with
    | some _ => .error (.assertionError
        "Not using PAST_DESIRED_SUCCESS strategy, but n_sampled_goal_preselection given")
    | none => .ok nsg

/-- Lines 321-351 of `_sample_transitions`: episode-index and HER-index
selection for both sampling regimes. -/
def phase1 {O A G I : Type} (s : HerState O A G I) (cfg : HerConfig) (d : Draws G)
    (batchSize : Option Nat) (maybeVecEnv : Option Unit) (onlineSampling : Bool)
    (nSampledGoal? : Option Nat) : Except PyErr Phase1Out :=
  if onlineSampling then
    match batchSize with
    | none => .error (.assertionError
        "No batch_size specified for online sampling of HER transitions")
    | some B =>
        .ok (.onlineSel (onlineEpisodeIndices s d.epDraw B)
          ((List.range B).take (herCount cfg.nSampledGoal B)))
  else
    match maybeVecEnv with
    | some _ => .error (.assertionError
        "Transitions must be stored unnormalized in the replay buffer")
    | none =>
      match nSampledGoal? with
      | none => .error (.assertionError
          "No n_sampled_goal specified for offline sampling of HER transitions")
      | some nsg =>
        match resolvePreselection cfg nsg with
        | .error e => .error e
        | .ok p =>
          let L := s.episodeLengths 0
          .ok (.offlineSel (List.replicate (L * p) 0) (List.range (L * p)) L p)

/-- Lines 353-361: `ep_lengths = episode_lengths[episode_indices]`, and under
FUTURE the HER indices of length-1 episodes are filtered out and the episode
lengths at the surviving HER indices are decremented.  Returns the filtered
HER index list and the adjusted `ep_lengths`. -/
def futureFilter {O A G I : Type} (s : HerState O A G I)
    (strategy : GoalSelectionStrategy) (eps her : List Nat) :
    List Nat × List Nat :=
  let epLengths := eps.map s.episodeLengths
  let her1 :=
    if strategy = .future then her.filter (fun i => decide (1 < epLengths.getD i 0))
    else her
  let epLengths1 := epLengths.enum.map
    (fun q => if strategy = .future ∧ q.1 ∈ her1 then q.2 - 1 else q.2)
  (her1, epLengths1)

/-- Method `sample_goals` (lines 270-304); the FUTURE draw is constrained in
the theorems to `[transitions_indices[her_indices] + 1, episode_lengths)` and
the EPISODE draw to `[0, episode_lengths)`, exactly as the corresponding
`np.random.randint` calls guarantee. -/
def sampleGoals {O A G I : Type} (s : HerState O A G I)
    (strategy : GoalSelectionStrategy) (goalDraw : Nat → Nat)
    (eps her _tIdx : List Nat) : Except PyErr (List G) :=
  let herEp := her.map (fun i => eps.getD i 0)
  match strategy with
  | .final =>
      .ok (herEp.map (fun e => (s.buf e (s.episodeLengths e - 1)).achievedGoal))
  | .future =>
      .ok ((List.range herEp.length).map
        (fun j => (s.buf (herEp.getD j 0) (goalDraw j)).achievedGoal))
  | .episode =>
      .ok ((List.range herEp.length).map
        (fun j => (s.buf (herEp.getD j 0) (goalDraw j)).achievedGoal))
  | _ => .error (.valueError "Strategy for sampling goals not supported")

/-- Lines 383-395: the substitute desired goals — drawn from the desired-goal
storage for the PAST_DESIRED strategies (one draw per HER index), else from
`sample_goals`. -/
def newGoalsFor {O A G I : Type} (s : HerState O A G I)
    (strategy : GoalSelectionStrategy) (goalDraw : Nat → Nat) (dgDraw : Nat → G)
    (eps her tIdx : List Nat) : Except PyErr (List G) :=
  if strategy = .pastDesired ∨ strategy = .pastDesiredSuccess then
    .ok ((List.range her.length).map dgDraw)
  else sampleGoals s strategy goalDraw eps her tIdx

/-- Line 397: `transitions["desired_goal"][her_indices] = new_goals` — the
fancy assignment writes `new_goals[j]` at position `her_indices[j]` (the HER
index lists of the code are strictly increasing, hence duplicate-free). -/
def relabelRows {O A G I : Type} (rows : List (StoredStep O A G I))
    (her : List Nat) (gs : List G) : List (StoredStep O A G I) :=
  rows.enum.map (fun q =>
    if q.1 ∈ her then
      { q.2 with desiredGoal := gs.getD (her.indexOf q.1) q.2.desiredGoal }
    else q.2)

/-- Lines 419-439: vectorised recomputation of the reward at the HER indices
via `env_method("compute_reward", next_achieved_goal, desired_goal, info)`,
guarded by `len(her_indices) > 0`; with `modify_goal` the second return value
of the callback also overwrites the desired goal. -/
def recomputeRewards {O A G I : Type} (cfg : HerConfig)
    (cR : G → G → I → ℤ) (mG : G → G → I → G)
    (rows : List (StoredStep O A G I)) (her : List Nat) :
    List (StoredStep O A G I) :=
  if 0 < her.length then
    rows.enum.map (fun q =>
      if q.1 ∈ her then
        if cfg.modifyGoal then
          { q.2 with
            reward := cR q.2.nextAchievedGoal q.2.desiredGoal q.2.info,
            desiredGoal := mG q.2.nextAchievedGoal q.2.desiredGoal q.2.info }
        else
          { q.2 with reward := cR q.2.nextAchievedGoal q.2.desiredGoal q.2.info }
      else q.2)
  else rows

/-- Lines 441-445: the transition-count assertion after relabeling.  The
Python locals `episode_length` and `n_sampled_goal_preselection` are assigned
only on the offline branch; evaluating them on the online branch raises
`UnboundLocalError` (the left operand `episode_length` is evaluated first). -/
def checkCounts1 (strategy : GoalSelectionStrategy) (eL? p? : Option Nat)
    (count : Nat) : Except PyErr Unit :=
  match eL? with
  | none => .error (.unboundLocalError "episode_length")
  | some L =>
    match p? with
    | none => .error (.unboundLocalError "n_sampled_goal_preselection")
    | some p =>
      if strategy = .future then
        if count = (L - 1) * p then .ok ()
        else .error (.assertionError "transition count after relabeling")
      else
        if count = L * p then .ok ()
        else .error (.assertionError "transition count after relabeling")

/-- Lines 478-482: the transition-count assertion after the selection stage,
against `episode_length * n_sampled_goal` (the `n_sampled_goal` parameter,
which is `None` for online calls). -/
def checkCounts2 (strategy : GoalSelectionStrategy) (eL? nsg? : Option Nat)
    (count : Nat) : Except PyErr Unit :=
  match eL? with
  | none => .error (.unboundLocalError "episode_length")
  | some L =>
    match nsg? with
    | none => .error (.typeError "unsupported operand with NoneType")
    | some n =>
      if strategy = .future then
        if count = (L - 1) * n then .ok ()
        else .error (.assertionError "transition count after selection")
      else
        if count = L * n then .ok ()
        else .error (.assertionError "transition count after selection")

/-- Lines 451-453: `reward_per_episode = np.sum(rewards.reshape(P, L), -1)` —
the row-major reshape puts entry `r*L + t` in row `r`. -/
def rewardPerEpisode (rw : List ℤ) (P L : Nat) : List ℤ :=
  (List.range P).map (fun r => ((List.range L).map (fun t => rw.getD (r * L + t) 0)).sum)

/-- Value of `np.argsort(R)`: the indices `0..R.length-1` sorted ascending by
value (numpy's quicksort tie order is unspecified; a stable sort is used here
and no theorem depends on the tie order). -/
def argsortQ (R : List ℤ) : List Nat :=
  List.insertionSort (fun i j => R.getD i 0 ≤ R.getD j 0) (List.range R.length)

/-- Python slice `l[-n:]`: the last `n` elements, except that `l[-0:]` is the
whole list. -/
def pySliceLastN {α : Type} (l : List α) (n : Nat) : List α :=
  if n = 0 then l else l.drop (l.length - n)

/-- Lines 454-462: `np.unique(reward_per_episode, return_index=True)` returns
the distinct sums ascending together with their first-occurrence indices; the
winners are the first-occurrence indices of the `n` largest distinct sums when
at least `n` distinct sums exist, else the last `n` entries of the argsort. -/
def pdsWinners (R : List ℤ) (n : Nat) : List Nat :=
  let uniques := List.insertionSort (fun a b : ℤ => a ≤ b) R.dedup
  let uniqueIndices := uniques.map (fun v => R.indexOf v)
  if n ≤ uniques.length then pySliceLastN uniqueIndices n
  else pySliceLastN (argsortQ R) n

/-- Lines 464-472: `keep_mask = repeat(mask, episode_length)` followed by
boolean-mask selection — row `i` is kept iff its replicate `i / L` won. -/
def maskKeep {O A G I : Type} (rows : List (StoredStep O A G I)) (L : Nat)
    (winners : List Nat) : List (StoredStep O A G I) :=
  ((rows.enum.filter (fun q => decide (q.1 / L ∈ winners))).map Prod.snd)

/-- Lines 447-476: the PAST_DESIRED_SUCCESS success-ranking selection stage,
or (for every other strategy) the assertion that the effective preselection
count equals the `n_sampled_goal` parameter, keeping the batch unchanged. -/
def selectStage {O A G I : Type} (cfg : HerConfig) (eL? p? nsg? : Option Nat)
    (rows : List (StoredStep O A G I)) : Except PyErr (List (StoredStep O A G I)) :=
  if cfg.strategy = .pastDesiredSuccess then
    match p? with
    | none => .error (.unboundLocalError "n_sampled_goal_preselection")
    | some p =>
      match nsg? with
      | none => .error (.typeError "comparison of NoneType and int")
      | some n =>
        if n < p then
          match eL? with
          | none => .error (.unboundLocalError "episode_length")
          | some L =>
            if rows.length = L * p then
              let R := rewardPerEpisode (rows.map (fun r => r.reward)) p L
              .ok (maskKeep rows L (pdsWinners R n))
            else .error (.assertionError "reward shape mismatch")
        else .error (.assertionError "n_sampled_goal must be smaller than preselection")
  else
    match p? with
    | none => .error (.unboundLocalError "n_sampled_goal_preselection")
    | some p =>
      if nsg? = some p then .ok rows
      else .error (.assertionError "preselection must equal n_sampled_goal")

/-- Lines 379-509 common tail of `_sample_transitions`: gather the selected
transitions, relabel the HER indices with the substitute goals, recompute
their rewards, run both count assertions around the selection stage.
Normalisation is the identity (`maybe_vec_env` is `None` on the offline path;
the online path never reaches the return). -/
def phase3 {O A G I : Type} (s : HerState O A G I) (cfg : HerConfig)
    (cR : G → G → I → ℤ) (mG : G → G → I → G) (d : Draws G)
    (eps her tIdx : List Nat) (eL? p? nsg? : Option Nat) :
    Except PyErr (List (StoredStep O A G I)) :=
  let rows := List.zipWith (fun e t => s.buf e t) eps tIdx
  match newGoalsFor s cfg.strategy d.goalDraw d.dgDraw eps her tIdx with
  | .error e => .error e
  | .ok gs =>
    let rows2 := recomputeRewards cfg cR mG (relabelRows rows her gs) her
    match checkCounts1 cfg.strategy eL? p? rows2.length with
    | .error e => .error e
    | .ok _ =>
      match selectStage cfg eL? p? nsg? rows2 with
      | .error e => .error e
      | .ok rows3 =>
        match checkCounts2 cfg.strategy eL? nsg? rows3.length with
        | .error e => .error e
        | .ok _ => .ok rows3

/-- Method `_sample_transitions` (lines 306-509). -/
def sampleTransitions {O A G I : Type} (s : HerState O A G I) (cfg : HerConfig)
    (cR : G → G → I → ℤ) (mG : G → G → I → G) (d : Draws G)
    (batchSize : Option Nat) (maybeVecEnv : Option Unit) (onlineSampling : Bool)
    (nSampledGoal? : Option Nat) : Except PyErr (List (StoredStep O A G I)) :=
  match phase1 s cfg d batchSize maybeVecEnv onlineSampling nSampledGoal? with
  | .error e => .error e
  | .ok (.onlineSel eps her) =>
      let fr := futureFilter s cfg.strategy eps her
      let tIdx := (List.range eps.length).map d.transDraw
      phase3 s cfg cR mG d eps fr.1 tIdx none none nSampledGoal?
  | .ok (.offlineSel eps her L p) =>
      let fr := futureFilter s cfg.strategy eps her
      if fr.1.length = 0 then .ok []
      else
        let tIdx := (List.replicate p (List.range (fr.2.getD 0 0))).flatten
        let eps2 := tIdx.map (fun t => eps.getD t 0)
        phase3 s cfg cR mG d eps2 (List.range eps2.length) tIdx (some L) (some p)
          nSampledGoal?

/-- Method `sample` for a buffer in online mode (`self.replay_buffer is None`,
lines 245-247): `_sample_transitions(batch_size, env, online_sampling=True)`
with the `n_sampled_goal` parameter left at its default `None`. -/
def sampleOnline {O A G I : Type} (s : HerState O A G I) (cfg : HerConfig)
    (cR : G → G → I → ℤ) (mG : G → G → I → G) (d : Draws G)
    (batchSize : Nat) (maybeVecEnv : Option Unit) :
    Except PyErr (List (StoredStep O A G I)) :=
  sampleTransitions s cfg cR mG d (some batchSize) maybeVecEnv true none

/-- Method `_sample_offline` (lines 249-268):
`_sample_transitions(batch_size=None, maybe_vec_env=None,
online_sampling=False, n_sampled_goal=self.n_sampled_goal)`. -/
def sampleOffline {O A G I : Type} (s : HerState O A G I) (cfg : HerConfig)
    (cR : G → G → I → ℤ) (mG : G → G → I → G) (d : Draws G) :
    Except PyErr (List (StoredStep O A G I)) :=
  sampleTransitions s cfg cR mG d none none false (some cfg.nSampledGoal)

/-- Method `_sample_her_transitions` (lines 602-622): sample the virtual
transitions for the stored episode and append each to the downstream plain
replay buffer with `done=[False]` and empty info.  The replay buffer is
modelled as the list of its stored transitions. -/
def sampleHerTransitions {O A G I : Type} (s : HerState O A G I) (cfg : HerConfig)
    (cR : G → G → I → ℤ) (mG : G → G → I → G) (d : Draws G) (emptyInfo : I)
    (replay : List (StoredStep O A G I)) :
    Except PyErr (List (StoredStep O A G I)) :=
  match sampleOffline s cfg cR mG d with
  | .error e => .error e
  | .ok rows => .ok (replay ++ rows.map (fun r => { r with done := 0, info := emptyInfo }))

/-- Numeric value of a boolean `done` flag as numpy stores it. -/
def bool01 (b : Bool) : ℤ := if b then 1 else 0

/-- The per-step record written by `add` (lines 525-539): with timeout
handling enabled the stored done value is
`done * (1 - info.get("TimeLimit.truncated", False))`, else the raw `done`. -/
def addInputStored {O A G I : Type} (cfg : HerConfig) (x : AddInput O A G I)
    (truncated : Bool) : StoredStep O A G I :=
  { observation := x.observation
    achievedGoal := x.achievedGoal
    desiredGoal := x.desiredGoal
    action := x.action
    reward := x.reward
    done :=
      if cfg.handleTimeoutTermination then bool01 x.done * (1 - bool01 truncated)
      else bool01 x.done
    nextObs := x.nextObs
    nextAchievedGoal := x.nextAchievedGoal
    nextDesiredGoal := x.nextDesiredGoal
    info := x.info }

/-- Lines 521-558 of `add`: write the transition at `(pos, current_idx)` and
advance the in-episode cursor and the step counter.  Clearing the stale info
deque of a recycled slot (lines 521-523) is subsumed by overwriting `buf`. -/
def addStore {O A G I : Type} (cfg : HerConfig) (s : HerState O A G I)
    (x : AddInput O A G I) (truncated : Bool) : HerState O A G I :=
  { s with
    buf := fun p t =>
      if p = s.pos ∧ t = s.currentIdx then addInputStored cfg x truncated
      else s.buf p t
    currentIdx := s.currentIdx + 1
    episodeSteps := s.episodeSteps + 1 }

/-- Method `store_episode` (lines 583-600): record the episode length for the
active slot, advance `pos` with wraparound (setting `full`), reset the
in-episode cursor. -/
def storeEpisode {O A G I : Type} (s : HerState O A G I) : HerState O A G I :=
  let lengths := fun i => if i = s.pos then s.currentIdx else s.episodeLengths i
  if s.pos + 1 = s.maxEpisodeStored then
    { s with episodeLengths := lengths, pos := 0, full := true, currentIdx := 0 }
  else
    { s with episodeLengths := lengths, pos := s.pos + 1, currentIdx := 0 }

/-- Method `reset` (lines 636-643): zero the cursors, the `full` flag and the
episode-length bookkeeping; the array storage is kept. -/
def resetState {O A G I : Type} (s : HerState O A G I) : HerState O A G I :=
  { s with pos := 0, currentIdx := 0, full := false, episodeLengths := fun _ => 0 }

/-- Method `add` (lines 511-581).  The downstream plain replay buffer is the
list `replay` (untouched in online mode, where `self.replay_buffer is None`).
On episode end (`done or episode_steps >= max_episode_length`, the raw done
signal) the episode is stored; in offline mode the virtual transitions are
then sampled into the replay buffer and the single-episode staging store is
reset.  The desired-goal storage written for the PAST_DESIRED strategies is
modelled by the `dgDraw` oracle of `Draws` and carries no further state. -/
def add {O A G I : Type} (cfg : HerConfig) (cR : G → G → I → ℤ)
    (mG : G → G → I → G) (d : Draws G) (emptyInfo : I) (s : HerState O A G I)
    (replay : List (StoredStep O A G I)) (x : AddInput O A G I)
    (truncated : Bool) :
    Except PyErr (HerState O A G I × List (StoredStep O A G I)) :=
  let s1 := addStore cfg s x truncated
  let replay1 :=
    if cfg.onlineSampling then replay
    else replay ++ [{ addInputStored cfg x truncated with done := bool01 x.done }]
  if x.done = true ∨ s.maxEpisodeLength ≤ s1.episodeSteps then
    let s2 := storeEpisode s1
    if cfg.onlineSampling then .ok ({ s2 with episodeSteps := 0 }, replay1)
    else
      match sampleHerTransitions s2 cfg cR mG d emptyInfo replay1 with
      | .error e => .error e
      | .ok replay2 => .ok ({ resetState s2 with episodeSteps := 0 }, replay2)
  else .ok (s1, replay1)

/-- A sequence of `add` calls, each with `TimeLimit.truncated = False`. -/
def runAdds {O A G I : Type} (cfg : HerConfig) (cR : G → G → I → ℤ)
    (mG : G → G → I → G) (d : Draws G) (emptyInfo : I) :
    List (AddInput O A G I) → HerState O A G I × List (StoredStep O A G I) →
    Except PyErr (HerState O A G I × List (StoredStep O A G I))
  | [], acc => .ok acc
  | x :: xs, acc =>
    match add cfg cR mG d emptyInfo acc.1 acc.2 x false with
    | .error e => .error e
    | .ok acc' => runAdds cfg cR mG d emptyInfo xs acc'

/-- A sequence of complete episodes, each given as its list of `add` calls. -/
def runEpisodes {O A G I : Type} (cfg : HerConfig) (cR : G → G → I → ℤ)
    (mG : G → G → I → G) (d : Draws G) (emptyInfo : I) :
    List (List (AddInput O A G I)) → HerState O A G I × List (StoredStep O A G I) →
    Except PyErr (HerState O A G I × List (StoredStep O A G I))
  | [], acc => .ok acc
  | ep :: es, acc =>
    match runAdds cfg cR mG d emptyInfo ep acc with
    | .error e => .error e
    | .ok acc' => runEpisodes cfg cR mG d emptyInfo es acc'

/-- A complete episode for the episode store: nonempty, at most
`max_episode_length` steps, `done` raised exactly at the last step. -/
def EpisodeOK {O A G I : Type} (maxLen : Nat) (ep : List (AddInput O A G I)) : Prop :=
  1 ≤ ep.length ∧ ep.length ≤ maxLen ∧
    ∀ i (h : i < ep.length), (ep.get ⟨i, h⟩).done = decide (i = ep.length - 1)

instance {O A G I : Type} (maxLen : Nat) (ep : List (AddInput O A G I)) :
    Decidable (EpisodeOK maxLen ep) :=
  decidable_of_iff
    (1 ≤ ep.length ∧ ep.length ≤ maxLen ∧
      ∀ i (h : i < ep.length), (ep.get ⟨i, h⟩).done = decide (i = ep.length - 1))
    Iff.rfl

/-- Python values travelling through the positional-argument binding of the
`HerReplayBuffer` constructor. -/
inductive PyVal where
  | pyStr (s : String)
  | pyBool (b : Bool)
  | pyInt (n : Int)
  | pyStrategy (g : GoalSelectionStrategy)
  | pyNone
deriving DecidableEq

/-- The parameters of `HerReplayBuffer.__init__` after the leading `env`
argument (lines 80-94), in declaration order. -/
structure HerInitArgs where
  buffer_size : PyVal
  device : PyVal
  replay_buffer : PyVal
  max_episode_length : PyVal
  n_sampled_goal : PyVal
  n_sampled_goal_preselection : PyVal
  desired_goal_buffer_size : PyVal
  goal_selection_strategy : PyVal
  online_sampling : PyVal
  handle_timeout_termination : PyVal
  modify_goal : PyVal

/-- Positional binding of a call `HerReplayBuffer(env, *args)` against the
parameter order of lines 80-94, missing positions taking the declared
defaults. -/
def herInitBind (args : List PyVal) : HerInitArgs :=
  { buffer_size := args.getD 0 .pyNone
    device := args.getD 1 (.pyStr "cpu")
    replay_buffer := args.getD 2 .pyNone
    max_episode_length := args.getD 3 .pyNone
    n_sampled_goal := args.getD 4 (.pyInt 4)
    n_sampled_goal_preselection := args.getD 5 .pyNone
    desired_goal_buffer_size := args.getD 6 (.pyInt 100000)
    goal_selection_strategy := args.getD 7 (.pyStr "future")
    online_sampling := args.getD 8 (.pyBool true)
    handle_timeout_termination := args.getD 9 (.pyBool true)
    modify_goal := args.getD 10 (.pyBool false) }

/-- Python truthiness of the values in play. -/
def pyTruthy : PyVal → Bool
  | .pyStr s => decide (s ≠ "")
  | .pyBool b => b
  | .pyInt n => decide (n ≠ 0)
  | .pyStrategy _ => true
  | .pyNone => false

/-- Lines 98-110 of `HerReplayBuffer.__init__`: convert a string strategy via
`KEY_TO_GOAL_STRATEGY` (a missing key raises `KeyError`), assert the result is
a `GoalSelectionStrategy` instance, and reject the PAST_DESIRED strategies
under online sampling. -/
def herInitValidate (strategyVal onlineVal : PyVal) :
    Except PyErr GoalSelectionStrategy :=
  match strategyVal with
  | .pyStr str =>
    match keyToGoalStrategy str.toLower with
    | some g =>
      if (g = .pastDesired ∨ g = .pastDesiredSuccess) ∧ pyTruthy onlineVal then
        .error (.assertionError
          "Selected GoalSelectionStrategy not implemented for online sampling")
      else .ok g
    | none => .error (.keyError str)
  | .pyStrategy g =>
      if (g = .pastDesired ∨ g = .pastDesiredSuccess) ∧ pyTruthy onlineVal then
        .error (.assertionError
          "Selected GoalSelectionStrategy not implemented for online sampling")
      else .ok g
  | _ => .error (.assertionError "Invalid goal selection strategy")

/-- The positional argument list `VecHerReplayBuffer.__init__` forwards to
each per-instance `HerReplayBuffer` after `env` (lines 716-729):
`buffer_sizes[i], device, replay_buffer, max_episode_length, n_sampled_goal,
goal_selection_strategy, online_sampling, handle_timeout_termination`. -/
def vecHerForward (bufferSizeI device replayBuffer maxEpisodeLength nSampledGoal
    goalSelectionStrategy onlineSampling handleTimeoutTermination : PyVal) :
    List PyVal :=
  [bufferSizeI, device, replayBuffer, maxEpisodeLength, nSampledGoal,
   goalSelectionStrategy, onlineSampling, handleTimeoutTermination]

/-- Construction of one per-instance `HerReplayBuffer` by the facade: bind the
forwarded positional list, then run the strategy validation — the first
fallible step of `HerReplayBuffer.__init__`. -/
def vecHerInitInstance (bufferSizeI device replayBuffer maxEpisodeLength
    nSampledGoal goalSelectionStrategy onlineSampling
    handleTimeoutTermination : PyVal) : Except PyErr GoalSelectionStrategy :=
  let a := herInitBind (vecHerForward bufferSizeI device replayBuffer
    maxEpisodeLength nSampledGoal goalSelectionStrategy onlineSampling
    handleTimeoutTermination)
  herInitValidate a.goal_selection_strategy a.online_sampling

/-- `VecHerReplayBuffer.__init__` (lines 697-729): build one
`HerReplayBuffer` per environment instance with
`buffer_sizes[i] = (buffer_size + i) // n_envs`; the loop stops at the first
raised error. -/
def vecHerInit (nEnvs : Nat) (bufferSize : Int) (device replayBuffer
    maxEpisodeLength nSampledGoal goalSelectionStrategy onlineSampling
    handleTimeoutTermination : PyVal) : Except PyErr Unit :=
  (List.range nEnvs).foldlM
    (fun _ i =>
      match vecHerInitInstance (.pyInt ((bufferSize + i) / nEnvs)) device
          replayBuffer maxEpisodeLength nSampledGoal goalSelectionStrategy
          onlineSampling handleTimeoutTermination with
      | .error e => .error e
      | .ok _ => .ok ())
    ()

/-! Concrete fixtures shared by witness theorems. -/

def tStep : StoredStep ℤ ℤ ℤ ℤ :=
  { observation := 0, achievedGoal := 0, desiredGoal := 0, action := 0,
    reward := 0, done := 0, nextObs := 0, nextAchievedGoal := 0,
    nextDesiredGoal := 0, info := 0 }

def tState : HerState ℤ ℤ ℤ ℤ :=
  { maxEpisodeStored := 2, maxEpisodeLength := 5, buf := fun _ _ => tStep,
    episodeLengths := fun _ => 0, pos := 0, full := false, currentIdx := 0,
    episodeSteps := 0 }

def tCfgFinal : HerConfig :=
  { nSampledGoal := 4, nSampledGoalPreselection := none, strategy := .final,
    onlineSampling := true, handleTimeoutTermination := true, modifyGoal := false }

def tDraws : Draws ℤ :=
  { epDraw := fun _ => 0, transDraw := fun _ => 0, goalDraw := fun _ => 0,
    dgDraw := fun _ => 0 }

def tCR : ℤ → ℤ → ℤ → ℤ := fun _ _ _ => 0

def tMG : ℤ → ℤ → ℤ → ℤ := fun _ _ _ => 0

def tAddDone : AddInput ℤ ℤ ℤ ℤ :=
  { observation := 1, achievedGoal := 2, desiredGoal := 3, nextObs := 4,
    nextAchievedGoal := 5, nextDesiredGoal := 6, action := 7, reward := 8,
    done := true, info := 9 }

/-- The episode-store writes of a sequence of `add` calls, before any episode
close. -/
def addList {O A G I : Type} (cfg : HerConfig) (s : HerState O A G I)
    (xs : List (AddInput O A G I)) : HerState O A G I :=
  xs.foldl (fun t x => addStore cfg t x false) s

def tEs : List (List (AddInput ℤ ℤ ℤ ℤ)) := [[tAddDone], [tAddDone], [tAddDone]]

def tCfgFuture : HerConfig :=
  { nSampledGoal := 2, nSampledGoalPreselection := none, strategy := .future,
    onlineSampling := false, handleTimeoutTermination := true,
    modifyGoal := false }

def tCfgFinalOff : HerConfig :=
  { nSampledGoal := 4, nSampledGoalPreselection := none, strategy := .final,
    onlineSampling := false, handleTimeoutTermination := true,
    modifyGoal := false }

def tCfgFinalOffPre : HerConfig :=
  { tCfgFinalOff with nSampledGoalPreselection := some 4 }

def tStateL1 : HerState ℤ ℤ ℤ ℤ :=
  { tState with episodeLengths := fun i => if i = 0 then 1 else 0 }

def tStateL3 : HerState ℤ ℤ ℤ ℤ :=
  { tState with
    episodeLengths := fun i => if i = 0 then 3 else 0,
    buf := fun e t =>
      { tStep with
        achievedGoal := (e : ℤ) * 100 + t,
        action := (t : ℤ),
        nextAchievedGoal := (50 : ℤ) + t,
        info := (7 : ℤ) + t } }

def tDrawsC2 : Draws ℤ :=
  { tDraws with goalDraw := fun j => j % 2 + 1 }

deriving instance DecidableEq for Except

/-- The per-row effect of the relabel step (line 397) followed by the reward
recomputation (lines 419-439) on a row at a HER index: the substitute goal is
written first, then `compute_reward` is applied to
`(next_achieved_goal, new desired_goal, info)` — with `modify_goal` its second
output also overwrites the desired goal.  Proved equal to the pipeline on the
offline path (`offline_run_eq`). -/
def rowRelabel {O A G I : Type} (cfg : HerConfig) (cR : G → G → I → ℤ)
    (mG : G → G → I → G) (r : StoredStep O A G I) (g : G) : StoredStep O A G I :=
  let r1 := { r with desiredGoal := g }
  if cfg.modifyGoal then
    { r1 with
      reward := cR r1.nextAchievedGoal r1.desiredGoal r1.info,
      desiredGoal := mG r1.nextAchievedGoal r1.desiredGoal r1.info }
  else { r1 with reward := cR r1.nextAchievedGoal r1.desiredGoal r1.info }

/-- The substitute goals drawn on the offline path (where every episode index
is 0), one per HER position; proved equal to the goal-sampling step of the
pipeline (`offline_run_eq`). -/
def offlineGoals {O A G I : Type} (cfg : HerConfig) (s : HerState O A G I)
    (d : Draws G) (N : Nat) : List G :=
  (List.range N).map (fun j =>
    match cfg.strategy with
    | .final => (s.buf 0 (s.episodeLengths 0 - 1)).achievedGoal
    | .future => (s.buf 0 (d.goalDraw j)).achievedGoal
    | .episode => (s.buf 0 (d.goalDraw j)).achievedGoal
    | _ => d.dgDraw j)

/-- The assembled offline batch before the selection stage: row `j` is the
stored step `(episode 0, step tIdx j)` relabeled with the j-th substitute
goal. -/
def offlineAssembled {O A G I : Type} (cfg : HerConfig) (cR : G → G → I → ℤ)
    (mG : G → G → I → G) (s : HerState O A G I) (d : Draws G)
    (p len0 : Nat) : List (StoredStep O A G I) :=
  List.zipWith (rowRelabel cfg cR mG)
    (((List.replicate p (List.range len0)).flatten).map (fun t => s.buf 0 t))
    (offlineGoals cfg s d (p * len0))

/-- The per-episode transition count of the offline path: `episode_length`,
reduced by one under FUTURE. -/
def offlineLen0 {O A G I : Type} (cfg : HerConfig) (s : HerState O A G I) : Nat :=
  if cfg.strategy = .future then s.episodeLengths 0 - 1 else s.episodeLengths 0

def tCfgPDS : HerConfig :=
  { nSampledGoal := 1, nSampledGoalPreselection := some 2,
    strategy := .pastDesiredSuccess, onlineSampling := false,
    handleTimeoutTermination := true, modifyGoal := false }

def tCfgPDS0 : HerConfig :=
  { tCfgPDS with nSampledGoal := 0, nSampledGoalPreselection := some 1 }

def tR3 : List ℤ :=
  rewardPerEpisode
    ((offlineAssembled tCfgPDS tCR tMG tStateL3 tDraws 2
      (tStateL3.episodeLengths 0)).map (fun r => r.reward))
    2 (tStateL3.episodeLengths 0)

def tW3 : List Nat := pdsWinners tR3 tCfgPDS.nSampledGoal

/-! Field lemmas for `storeEpisode`. -/

theorem storeEpisode_buf {O A G I : Type} (s : HerState O A G I) :
    (storeEpisode s).buf = s.buf := by
  by_cases hmax : s.pos + 1 = s.maxEpisodeStored <;> simp [storeEpisode, hmax]

theorem storeEpisode_currentIdx {O A G I : Type} (s : HerState O A G I) :
    (storeEpisode s).currentIdx = 0 := by
  by_cases hmax : s.pos + 1 = s.maxEpisodeStored <;> simp [storeEpisode, hmax]

theorem storeEpisode_maxStored {O A G I : Type} (s : HerState O A G I) :
    (storeEpisode s).maxEpisodeStored = s.maxEpisodeStored := by
  by_cases hmax : s.pos + 1 = s.maxEpisodeStored <;> simp [storeEpisode, hmax]

theorem storeEpisode_maxLen {O A G I : Type} (s : HerState O A G I) :
    (storeEpisode s).maxEpisodeLength = s.maxEpisodeLength := by
  by_cases hmax : s.pos + 1 = s.maxEpisodeStored <;> simp [storeEpisode, hmax]

theorem storeEpisode_steps {O A G I : Type} (s : HerState O A G I) :
    (storeEpisode s).episodeSteps = s.episodeSteps := by
  by_cases hmax : s.pos + 1 = s.maxEpisodeStored <;> simp [storeEpisode, hmax]

theorem storeEpisode_lengths {O A G I : Type} (s : HerState O A G I) :
    (storeEpisode s).episodeLengths =
      fun i => if i = s.pos then s.currentIdx else s.episodeLengths i := by
  by_cases hmax : s.pos + 1 = s.maxEpisodeStored <;> simp [storeEpisode, hmax]

theorem storeEpisode_pos {O A G I : Type} (s : HerState O A G I)
    (h : s.pos < s.maxEpisodeStored) :
    (storeEpisode s).pos = (s.pos + 1) % s.maxEpisodeStored := by
  by_cases hmax : s.pos + 1 = s.maxEpisodeStored
  · simp [storeEpisode, hmax, Nat.mod_self]
  · simp [storeEpisode, hmax,
      Nat.mod_eq_of_lt (Nat.lt_of_le_of_ne (Nat.succ_le_of_lt h) hmax)]

theorem storeEpisode_full {O A G I : Type} (s : HerState O A G I) :
    (storeEpisode s).full = (s.full || decide (s.pos + 1 = s.maxEpisodeStored)) := by
  by_cases hmax : s.pos + 1 = s.maxEpisodeStored <;> simp [storeEpisode, hmax]

/-! State evolution of a run of non-terminal `add` calls. -/

theorem addList_nil {O A G I : Type} (cfg : HerConfig) (s : HerState O A G I) :
    addList cfg s [] = s := rfl

theorem addList_cons {O A G I : Type} (cfg : HerConfig) (s : HerState O A G I)
    (x : AddInput O A G I) (xs : List (AddInput O A G I)) :
    addList cfg s (x :: xs) = addList cfg (addStore cfg s x false) xs := rfl

theorem addList_append {O A G I : Type} (cfg : HerConfig) (s : HerState O A G I)
    (xs ys : List (AddInput O A G I)) :
    addList cfg s (xs ++ ys) = addList cfg (addList cfg s xs) ys :=
  List.foldl_append ..

theorem addList_pos {O A G I : Type} (cfg : HerConfig) :
    ∀ (xs : List (AddInput O A G I)) (s : HerState O A G I),
      (addList cfg s xs).pos = s.pos
  | [], s => rfl
  | _ :: xs, s => addList_pos cfg xs _

theorem addList_full {O A G I : Type} (cfg : HerConfig) :
    ∀ (xs : List (AddInput O A G I)) (s : HerState O A G I),
      (addList cfg s xs).full = s.full
  | [], s => rfl
  | _ :: xs, s => addList_full cfg xs _

theorem addList_lengths {O A G I : Type} (cfg : HerConfig) :
    ∀ (xs : List (AddInput O A G I)) (s : HerState O A G I),
      (addList cfg s xs).episodeLengths = s.episodeLengths
  | [], s => rfl
  | _ :: xs, s => addList_lengths cfg xs _

theorem addList_maxStored {O A G I : Type} (cfg : HerConfig) :
    ∀ (xs : List (AddInput O A G I)) (s : HerState O A G I),
      (addList cfg s xs).maxEpisodeStored = s.maxEpisodeStored
  | [], s => rfl
  | _ :: xs, s => addList_maxStored cfg xs _

theorem addList_maxLen {O A G I : Type} (cfg : HerConfig) :
    ∀ (xs : List (AddInput O A G I)) (s : HerState O A G I),
      (addList cfg s xs).maxEpisodeLength = s.maxEpisodeLength
  | [], s => rfl
  | _ :: xs, s => addList_maxLen cfg xs _

theorem addList_currentIdx {O A G I : Type} (cfg : HerConfig) :
    ∀ (xs : List (AddInput O A G I)) (s : HerState O A G I),
      (addList cfg s xs).currentIdx = s.currentIdx + xs.length
  | [], s => rfl
  | x :: xs, s => by
      rw [addList_cons, addList_currentIdx cfg xs]
      simp [addStore]; omega

theorem addList_steps {O A G I : Type} (cfg : HerConfig) :
    ∀ (xs : List (AddInput O A G I)) (s : HerState O A G I),
      (addList cfg s xs).episodeSteps = s.episodeSteps + xs.length
  | [], s => rfl
  | x :: xs, s => by
      rw [addList_cons, addList_steps cfg xs]
      simp [addStore]; omega

theorem addList_buf_frozen {O A G I : Type} (cfg : HerConfig) :
    ∀ (xs : List (AddInput O A G I)) (s : HerState O A G I) (p t : Nat),
      p ≠ s.pos ∨ t < s.currentIdx ∨ s.currentIdx + xs.length ≤ t →
      (addList cfg s xs).buf p t = s.buf p t
  | [], _, _, _, _ => rfl
  | x :: xs, s, p, t, h => by
      rw [addList_cons, addList_buf_frozen cfg xs _ p t ?side]
      · show (if p = s.pos ∧ t = s.currentIdx then _ else s.buf p t) = s.buf p t
        rcases h with h | h | h
        · rw [if_neg]; rintro ⟨hp, -⟩; exact h hp
        · rw [if_neg]; rintro ⟨-, rfl⟩; omega
        · rw [if_neg]; rintro ⟨-, rfl⟩; simp only [List.length_cons] at h; omega
      case side =>
        show p ≠ s.pos ∨ t < s.currentIdx + 1 ∨ s.currentIdx + 1 + xs.length ≤ t
        rcases h with h | h | h
        · exact .inl h
        · exact .inr (.inl (Nat.lt_succ_of_lt h))
        · exact .inr (.inr (by simp at h ⊢; omega))

theorem addList_buf_written {O A G I : Type} (cfg : HerConfig) :
    ∀ (xs : List (AddInput O A G I)) (s : HerState O A G I) (j : Nat)
      (hj : j < xs.length),
      (addList cfg s xs).buf s.pos (s.currentIdx + j) =
        addInputStored cfg (xs.get ⟨j, hj⟩) false
  | x :: xs, s, 0, _ => by
      rw [addList_cons,
        addList_buf_frozen cfg xs _ s.pos (s.currentIdx + 0)
          (.inr (.inl (by simp [addStore])))]
      simp [addStore]
  | x :: xs, s, j + 1, hj => by
      rw [addList_cons]
      have h1 : s.currentIdx + (j + 1) = (addStore cfg s x false).currentIdx + j := by
        simp [addStore]; omega
      have h2 : (addStore cfg s x false).pos = s.pos := rfl
      rw [show ((x :: xs).get ⟨j + 1, hj⟩) =
        xs.get ⟨j, Nat.lt_of_succ_lt_succ (by simpa using hj)⟩ from rfl]
      rw [h1, ← h2]
      exact addList_buf_written cfg xs (addStore cfg s x false) j _

/-- A run of `add` calls none of which closes the episode behaves as the pure
sequence of buffer writes. -/
theorem runAdds_nonterminal {O A G I : Type} (cfg : HerConfig)
    (cR : G → G → I → ℤ) (mG : G → G → I → G) (d : Draws G) (emptyInfo : I)
    (h2 : cfg.onlineSampling = true) :
    ∀ (xs : List (AddInput O A G I)) (s : HerState O A G I)
      (rp : List (StoredStep O A G I)),
      (∀ x ∈ xs, x.done = false) →
      s.episodeSteps + xs.length < s.maxEpisodeLength →
      runAdds cfg cR mG d emptyInfo xs (s, rp) = .ok (addList cfg s xs, rp)
  | [], s, rp, _, _ => rfl
  | x :: xs, s, rp, hd, hlen => by
      have hx : x.done = false := hd x (by simp)
      have hlen' : s.episodeSteps + xs.length + 1 < s.maxEpisodeLength := by
        simp at hlen; omega
      have hc : ¬(x.done = true ∨ s.maxEpisodeLength ≤ s.episodeSteps + 1) := by
        simp [hx]; omega
      have hstep : add cfg cR mG d emptyInfo s rp x false =
          .ok (addStore cfg s x false, rp) := by
        simp [add, addStore, h2, hc]
      rw [runAdds, hstep]
      show runAdds cfg cR mG d emptyInfo xs (addStore cfg s x false, rp) = _
      rw [runAdds_nonterminal cfg cR mG d emptyInfo h2 xs _ rp
        (fun y hy => hd y (by simp [hy])) (by simp [addStore]; omega)]
      rw [addList_cons]

/-- One complete episode (`EpisodeOK`) run from a state with cleared cursors:
all steps are written to slot `pos`, then the final `add` closes the
episode. -/
theorem runAdds_episode {O A G I : Type} (cfg : HerConfig)
    (cR : G → G → I → ℤ) (mG : G → G → I → G) (d : Draws G) (emptyInfo : I)
    (h2 : cfg.onlineSampling = true) (ep : List (AddInput O A G I))
    (s : HerState O A G I) (rp : List (StoredStep O A G I))
    (hok : EpisodeOK s.maxEpisodeLength ep)
    (hcur : s.currentIdx = 0) (hsteps : s.episodeSteps = 0) :
    runAdds cfg cR mG d emptyInfo ep (s, rp) =
      .ok ({ storeEpisode (addList cfg s ep) with episodeSteps := 0 }, rp) := by
  obtain ⟨hlen1, hlenM, hdone⟩ := hok
  have hne : ep ≠ [] := by
    intro h; rw [h] at hlen1; simp at hlen1
  obtain ⟨front, lastx, rfl⟩ : ∃ front lastx, ep = front ++ [lastx] := by
    refine ⟨ep.dropLast, ep.getLast hne, ?_⟩
    exact (List.dropLast_append_getLast hne).symm
  have hfront : ∀ x ∈ front, x.done = false := by
    intro x hx
    obtain ⟨i, hi, rfl⟩ := List.getElem_of_mem hx
    have hi' : i < (front ++ [lastx]).length := by simp; omega
    have hd := hdone i hi'
    rw [List.get_eq_getElem, List.getElem_append_left hi] at hd
    rw [hd, decide_eq_false_iff_not]
    simp
    omega
  have hlast : lastx.done = true := by
    have hi' : (front ++ [lastx]).length - 1 < (front ++ [lastx]).length := by
      simp
    have hd := hdone _ hi'
    rw [List.get_eq_getElem] at hd
    have harr : (front ++ [lastx])[(front ++ [lastx]).length - 1] = lastx := by
      rw [List.getElem_append_right (by simp)]
      simp
    rw [harr] at hd
    simpa using hd
  have hfl : front.length + 1 ≤ s.maxEpisodeLength := by simpa using hlenM
  have hrun1 : runAdds cfg cR mG d emptyInfo front (s, rp) =
      .ok (addList cfg s front, rp) :=
    runAdds_nonterminal cfg cR mG d emptyInfo h2 front s rp hfront (by omega)
  have hrunapp : ∀ (l1 l2 : List (AddInput O A G I)) (acc),
      runAdds cfg cR mG d emptyInfo (l1 ++ l2) acc =
        match runAdds cfg cR mG d emptyInfo l1 acc with
        | .error e => .error e
        | .ok acc' => runAdds cfg cR mG d emptyInfo l2 acc' := by
    intro l1
    induction l1 with
    | nil => intro l2 acc; rfl
    | cons y l1 ih =>
        intro l2 acc
        rw [List.cons_append, runAdds, runAdds]
        cases add cfg cR mG d emptyInfo acc.1 acc.2 y false with
        | error e => rfl
        | ok acc' => exact ih l2 acc'
  rw [hrunapp front [lastx] (s, rp), hrun1]
  have hstep : add cfg cR mG d emptyInfo (addList cfg s front) rp lastx false =
      .ok ({ storeEpisode (addStore cfg (addList cfg s front) lastx false) with
        episodeSteps := 0 }, rp) := by
    simp [add, addStore, storeEpisode, h2, hlast]
  show runAdds cfg cR mG d emptyInfo [lastx] (addList cfg s front, rp) = _
  have hone : runAdds cfg cR mG d emptyInfo [lastx] (addList cfg s front, rp) =
      match add cfg cR mG d emptyInfo (addList cfg s front) rp lastx false with
      | .error e => .error e
      | .ok acc' => runAdds cfg cR mG d emptyInfo [] acc' := rfl
  rw [hone, hstep]
  rw [addList_append]
  rfl

theorem runEpisodes_append {O A G I : Type} (cfg : HerConfig)
    (cR : G → G → I → ℤ) (mG : G → G → I → G) (d : Draws G) (emptyInfo : I) :
    ∀ (l1 l2 : List (List (AddInput O A G I)))
      (acc : HerState O A G I × List (StoredStep O A G I)),
      runEpisodes cfg cR mG d emptyInfo (l1 ++ l2) acc =
        match runEpisodes cfg cR mG d emptyInfo l1 acc with
        | .error e => .error e
        | .ok acc' => runEpisodes cfg cR mG d emptyInfo l2 acc'
  | [], _, _ => rfl
  | ep :: l1, l2, acc => by
      rw [List.cons_append, runEpisodes, runEpisodes]
      cases runAdds cfg cR mG d emptyInfo ep acc with
      | error e => rfl
      | ok acc' => exact runEpisodes_append cfg cR mG d emptyInfo l1 l2 acc'

/-- Ring-buffer invariant over a run of complete episodes from a state with
cleared cursors: `pos` advances modulo the capacity, and `full` is raised as
soon as the write position has wrapped. -/
theorem runEpisodes_inv {O A G I : Type} (cfg : HerConfig)
    (cR : G → G → I → ℤ) (mG : G → G → I → G) (d : Draws G) (emptyInfo : I)
    (h2 : cfg.onlineSampling = true) :
    ∀ (es : List (List (AddInput O A G I))) (s : HerState O A G I)
      (rp : List (StoredStep O A G I)),
      (∀ ep ∈ es, EpisodeOK s.maxEpisodeLength ep) →
      s.currentIdx = 0 → s.episodeSteps = 0 → s.pos < s.maxEpisodeStored →
      ∃ s', runEpisodes cfg cR mG d emptyInfo es (s, rp) = .ok (s', rp) ∧
        s'.maxEpisodeStored = s.maxEpisodeStored ∧
        s'.maxEpisodeLength = s.maxEpisodeLength ∧
        s'.currentIdx = 0 ∧ s'.episodeSteps = 0 ∧
        s'.pos = (s.pos + es.length) % s.maxEpisodeStored ∧
        s'.full = (s.full || decide (s.maxEpisodeStored ≤ s.pos + es.length)) := by
  intro es
  induction es with
  | nil =>
      intro s rp _ hcur hsteps hpos
      refine ⟨s, rfl, rfl, rfl, hcur, hsteps, ?_, ?_⟩
      · simp [Nat.mod_eq_of_lt hpos]
      · simp [Nat.not_le.mpr hpos]
  | cons ep rest ih =>
      intro s rp hoks hcur hsteps hpos
      have hmaxpos : 0 < s.maxEpisodeStored := lt_of_le_of_lt (Nat.zero_le _) hpos
      have hrun1 := runAdds_episode cfg cR mG d emptyInfo h2 ep s rp
        (hoks ep (by simp)) hcur hsteps
      set s1 : HerState O A G I :=
        { storeEpisode (addList cfg s ep) with episodeSteps := 0 } with hs1
      have hs1max : s1.maxEpisodeStored = s.maxEpisodeStored := by
        simp [hs1, storeEpisode_maxStored, addList_maxStored]
      have hs1len : s1.maxEpisodeLength = s.maxEpisodeLength := by
        simp [hs1, storeEpisode_maxLen, addList_maxLen]
      have hs1cur : s1.currentIdx = 0 := by
        simp [hs1, storeEpisode_currentIdx]
      have hs1pos : s1.pos = (s.pos + 1) % s.maxEpisodeStored := by
        have := storeEpisode_pos (addList cfg s ep)
          (by rw [addList_pos, addList_maxStored]; exact hpos)
        rw [addList_pos, addList_maxStored] at this
        simpa [hs1] using this
      have hs1full : s1.full = (s.full || decide (s.pos + 1 = s.maxEpisodeStored)) := by
        have := storeEpisode_full (addList cfg s ep)
        rw [addList_full, addList_pos, addList_maxStored] at this
        simpa [hs1] using this
      obtain ⟨s', hrun2, hmax', hlen', hcur', hsteps', hpos', hfull'⟩ :=
        ih s1 rp
          (by
            intro e he
            have := hoks e (by simp [he])
            rwa [← hs1len] at this)
          hs1cur (by simp [hs1]) (by rw [hs1pos, hs1max]; exact Nat.mod_lt _ hmaxpos)
      refine ⟨s', ?_, by rw [hmax', hs1max], by rw [hlen', hs1len], hcur', hsteps',
        ?_, ?_⟩
      · rw [runEpisodes, hrun1]
        show runEpisodes cfg cR mG d emptyInfo rest (s1, rp) = _
        exact hrun2
      · rw [hpos', hs1pos, hs1max]
        rw [Nat.mod_add_mod]
        congr 1
        simp
        omega
      · rw [hfull', hs1full, hs1pos, hs1max]
        by_cases hp1 : s.pos + 1 = s.maxEpisodeStored
        · have h1 : decide (s.pos + 1 = s.maxEpisodeStored) = true := by
            simp [hp1]
          have h2' : decide (s.maxEpisodeStored ≤ s.pos + (ep :: rest).length) = true := by
            simp
            omega
          rw [h1, h2']
          simp
        · have hlt : s.pos + 1 < s.maxEpisodeStored :=
            Nat.lt_of_le_of_ne (Nat.succ_le_of_lt hpos) hp1
          have h1 : decide (s.pos + 1 = s.maxEpisodeStored) = false := by
            simp [hp1]
          rw [h1, Nat.mod_eq_of_lt hlt]
          have h3 : s.pos + 1 + rest.length = s.pos + (ep :: rest).length := by
            simp
            omega
          rw [h3]
          simp

/-! List computations backing the offline path. -/

theorem getD_replicate_self {α : Type} (n : Nat) (a : α) (t : Nat) :
    (List.replicate n a).getD t a = a := by
  rw [List.getD_eq_getElem?_getD, List.getElem?_replicate]
  split <;> rfl

theorem flatten_replicate_range_length (p len0 : Nat) :
    ((List.replicate p (List.range len0)).flatten).length = p * len0 := by
  induction p with
  | zero => simp
  | succ p ih =>
      rw [List.replicate_succ]
      simp only [List.flatten_cons, List.length_append, List.length_range, ih]
      ring

theorem flatten_replicate_range_getD (len0 : Nat) :
    ∀ (p j : Nat), j < p * len0 →
      ((List.replicate p (List.range len0)).flatten).getD j 0 = j % len0 := by
  intro p
  induction p with
  | zero => intro j hj; omega
  | succ p ih =>
      intro j hj
      have hx : (p + 1) * len0 = p * len0 + len0 := Nat.succ_mul p len0
      rw [List.replicate_succ, List.flatten_cons]
      rcases Nat.lt_or_ge j len0 with h | h
      · rw [List.getD_append _ _ _ _ (by simpa using h)]
        rw [List.getD_eq_getElem?_getD, List.getElem?_range h]
        exact (Nat.mod_eq_of_lt h).symm
      · rw [List.getD_append_right _ _ _ _ (by simpa using h)]
        simp only [List.length_range]
        rw [ih (j - len0) (by omega)]
        conv_rhs => rw [show j = j - len0 + len0 by omega]
        rw [Nat.add_mod_right]

theorem indexOf_range {n i : Nat} (h : i < n) : (List.range n).indexOf i = i := by
  have h' : i < (List.range n).length := by simpa using h
  have := List.indexOf_getElem (List.nodup_range n) i h'
  simpa using this

/-- Relabeling with every index HER-eligible writes the j-th goal into the
j-th row. -/
theorem relabelRows_full {O A G I : Type} (rows : List (StoredStep O A G I))
    (gs : List G) (hlen : gs.length = rows.length) :
    relabelRows rows (List.range rows.length) gs =
      List.zipWith (fun r g => { r with desiredGoal := g }) rows gs := by
  apply List.ext_getElem
  · simp [relabelRows, hlen]
  · intro j h1 h2
    have hj : j < rows.length := by simpa [relabelRows] using h1
    simp only [relabelRows, List.getElem_map, List.getElem_enum,
      List.getElem_zipWith]
    rw [if_pos (List.mem_range.mpr hj), indexOf_range hj,
      List.getD_eq_getElem _ _ (by omega)]

/-- Reward recomputation with every index HER-eligible applies the callback to
every row. -/
theorem recomputeRewards_full {O A G I : Type} (cfg : HerConfig)
    (cR : G → G → I → ℤ) (mG : G → G → I → G)
    (rows' : List (StoredStep O A G I)) (hpos : 0 < rows'.length) :
    recomputeRewards cfg cR mG rows' (List.range rows'.length) =
      rows'.map (fun r =>
        if cfg.modifyGoal then
          { r with
            reward := cR r.nextAchievedGoal r.desiredGoal r.info,
            desiredGoal := mG r.nextAchievedGoal r.desiredGoal r.info }
        else { r with reward := cR r.nextAchievedGoal r.desiredGoal r.info }) := by
  unfold recomputeRewards
  rw [if_pos (show 0 < (List.range rows'.length).length by simpa using hpos)]
  apply List.ext_getElem
  · simp
  · intro j h1 h2
    have hj : j < rows'.length := by simpa using h2
    simp only [List.getElem_map, List.getElem_enum]
    rw [if_pos (List.mem_range.mpr hj)]

/-- With every index HER-eligible (the offline path), relabeling followed by
reward recomputation is the pointwise `rowRelabel`. -/
theorem relabel_recompute_eq {O A G I : Type} (cfg : HerConfig)
    (cR : G → G → I → ℤ) (mG : G → G → I → G)
    (rows : List (StoredStep O A G I)) (gs : List G)
    (hlen : gs.length = rows.length) (hpos : 0 < rows.length) :
    recomputeRewards cfg cR mG (relabelRows rows (List.range rows.length) gs)
      (List.range rows.length) =
      List.zipWith (rowRelabel cfg cR mG) rows gs := by
  rw [relabelRows_full rows gs hlen]
  have hzl : (List.zipWith (fun r (g : G) => { r with desiredGoal := g })
      rows gs).length = rows.length := by
    simp [hlen]
  rw [show List.range rows.length =
    List.range (List.zipWith (fun r (g : G) => { r with desiredGoal := g })
      rows gs).length by rw [hzl]]
  rw [recomputeRewards_full cfg cR mG _ (by rw [hzl]; exact hpos)]
  rw [List.map_zipWith]
  congr 1

/-- On the offline path every selected episode index is 0, so the goal
sampling step returns `offlineGoals`. -/
theorem newGoalsFor_offline {O A G I : Type} (s : HerState O A G I)
    (cfg : HerConfig) (d : Draws G) (tIdx : List Nat) (eps2 : List Nat)
    (heps : eps2 = tIdx.map (fun _ => 0)) (N : Nat) (hN : eps2.length = N) :
    newGoalsFor s cfg.strategy d.goalDraw d.dgDraw eps2 (List.range N) tIdx =
      .ok (offlineGoals cfg s d N) := by
  have hgetD : ∀ i, eps2.getD i 0 = 0 := by
    intro i
    rw [heps, List.map_const', getD_replicate_self]
  have hherEp : (List.range N).map (fun i => eps2.getD i 0) =
      (List.range N).map (fun _ => 0) :=
    List.map_congr_left (fun i _ => hgetD i)
  have hherEp0 : ∀ j, ((List.range N).map (fun i => eps2.getD i 0)).getD j 0 = 0 := by
    intro j
    rw [hherEp, List.map_const', getD_replicate_self]
  cases hst : cfg.strategy with
  | pastDesired =>
      simp [newGoalsFor, offlineGoals, hst]
  | pastDesiredSuccess =>
      simp [newGoalsFor, offlineGoals, hst]
  | final =>
      simp only [newGoalsFor, hst]
      rw [if_neg (by simp)]
      simp only [sampleGoals]
      rw [hherEp, List.map_map]
      rw [show offlineGoals cfg s d N = (List.range N).map
        (fun _ => (s.buf 0 (s.episodeLengths 0 - 1)).achievedGoal) by
          simp [offlineGoals, hst]]
      rfl
  | future =>
      simp only [newGoalsFor, hst]
      rw [if_neg (by simp)]
      simp only [sampleGoals]
      rw [List.length_map, List.length_range]
      rw [show offlineGoals cfg s d N = (List.range N).map
        (fun j => (s.buf 0 (d.goalDraw j)).achievedGoal) by
          simp [offlineGoals, hst]]
      congr 1
      apply List.map_congr_left
      intro j _
      rw [hherEp0 j]
  | episode =>
      simp only [newGoalsFor, hst]
      rw [if_neg (by simp)]
      simp only [sampleGoals]
      rw [List.length_map, List.length_range]
      rw [show offlineGoals cfg s d N = (List.range N).map
        (fun j => (s.buf 0 (d.goalDraw j)).achievedGoal) by
          simp [offlineGoals, hst]]
      congr 1
      apply List.map_congr_left
      intro j _
      rw [hherEp0 j]

/-- The FUTURE filter on the offline index lists: all HER indices survive iff
the stored episode has length above 1, and the adjusted leading episode length
is decremented exactly for FUTURE. -/
theorem futureFilter_offline {O A G I : Type} (s : HerState O A G I)
    (strategy : GoalSelectionStrategy) (M : Nat) :
    (futureFilter s strategy (List.replicate M 0) (List.range M)).1 =
      (if strategy = .future ∧ s.episodeLengths 0 ≤ 1 then []
       else List.range M) ∧
    (0 < M →
      (futureFilter s strategy (List.replicate M 0) (List.range M)).2.getD 0 0 =
        (if strategy = .future ∧ 1 < s.episodeLengths 0 then
          s.episodeLengths 0 - 1
         else s.episodeLengths 0)) := by
  have hmap : (List.replicate M 0).map s.episodeLengths =
      List.replicate M (s.episodeLengths 0) := List.map_replicate ..
  have hgetD : ∀ i, i < M →
      ((List.replicate M 0).map s.episodeLengths).getD i 0 = s.episodeLengths 0 := by
    intro i hi
    rw [hmap, List.getD_eq_getElem _ _ (by simpa using hi)]
    simp
  by_cases hf : strategy = .future
  · by_cases hL : 1 < s.episodeLengths 0
    · have hher : (futureFilter s strategy (List.replicate M 0)
          (List.range M)).1 = List.range M := by
        simp only [futureFilter, hf, if_pos]
        apply List.filter_eq_self.mpr
        intro i hi
        rw [hgetD i (by simpa using hi)]
        simpa using hL
      refine ⟨by rw [hher]; simp [hf, Nat.not_le.mpr hL], ?_⟩
      intro hM
      simp only [futureFilter]
      rw [List.getD_eq_getElem _ _ (by simpa using hM)]
      simp only [List.getElem_map, List.getElem_enum]
      have h0 : (0 : Nat) ∈ (futureFilter s strategy (List.replicate M 0)
          (List.range M)).1 := by
        rw [hher]
        simpa using hM
      simp only [futureFilter] at h0
      rw [if_pos ⟨hf, h0⟩]
      simp [hf, hL]
    · have hher : (futureFilter s strategy (List.replicate M 0)
          (List.range M)).1 = [] := by
        simp only [futureFilter, hf, if_pos]
        apply List.filter_eq_nil_iff.mpr
        intro i hi
        rw [hgetD i (by simpa using hi)]
        simpa using hL
      refine ⟨by rw [hher]; simp [hf, Nat.not_lt.mp hL], ?_⟩
      intro hM
      simp only [futureFilter]
      rw [List.getD_eq_getElem _ _ (by simpa using hM)]
      simp only [List.getElem_map, List.getElem_enum]
      have h0 : (0 : Nat) ∉ (futureFilter s strategy (List.replicate M 0)
          (List.range M)).1 := by
        rw [hher]
        simp
      simp only [futureFilter] at h0
      rw [if_neg (fun hc => h0 hc.2)]
      simp [hf, hL]
  · have hher : (futureFilter s strategy (List.replicate M 0)
        (List.range M)).1 = List.range M := by
      simp [futureFilter, hf]
    refine ⟨by rw [hher]; simp [hf], ?_⟩
    intro hM
    simp only [futureFilter]
    rw [List.getD_eq_getElem _ _ (by simpa using hM)]
    simp only [List.getElem_map, List.getElem_enum]
    rw [if_neg (fun hc => hf hc.1)]
    simp [hf]

theorem sampleTransitions_offline_unfold {O A G I : Type}
    (s : HerState O A G I) (cfg : HerConfig) (cR : G → G → I → ℤ)
    (mG : G → G → I → G) (d : Draws G) (nsg : Nat) (E H : List Nat) (L p : Nat)
    (h1 : phase1 s cfg d none none false (some nsg) =
      .ok (.offlineSel E H L p)) :
    sampleTransitions s cfg cR mG d none none false (some nsg) =
      (let fr := futureFilter s cfg.strategy E H
       if fr.1.length = 0 then .ok []
       else
         let tIdx := (List.replicate p (List.range (fr.2.getD 0 0))).flatten
         let eps2 := tIdx.map (fun t => E.getD t 0)
         phase3 s cfg cR mG d eps2 (List.range eps2.length) tIdx (some L)
           (some p) (some nsg)) := by
  unfold sampleTransitions
  rw [h1]

/-- The offline `phase3` call on the tiled index lists equals the check /
select / check tail applied to `offlineAssembled`. -/
theorem phase3_offline {O A G I : Type} (s : HerState O A G I)
    (cfg : HerConfig) (cR : G → G → I → ℤ) (mG : G → G → I → G) (d : Draws G)
    (p len0 L nsg : Nat) (hpos : 0 < p * len0) :
    phase3 s cfg cR mG d
      (((List.replicate p (List.range len0)).flatten).map
        (fun t => (List.replicate (L * p) 0).getD t 0))
      (List.range ((((List.replicate p (List.range len0)).flatten).map
        (fun t => (List.replicate (L * p) 0).getD t 0)).length))
      ((List.replicate p (List.range len0)).flatten) (some L) (some p)
      (some nsg) =
      (match checkCounts1 cfg.strategy (some L) (some p)
          (offlineAssembled cfg cR mG s d p len0).length with
       | .error e => .error e
       | .ok _ =>
         match selectStage cfg (some L) (some p) (some nsg)
             (offlineAssembled cfg cR mG s d p len0) with
         | .error e => .error e
         | .ok rows3 =>
           match checkCounts2 cfg.strategy (some L) (some nsg) rows3.length with
           | .error e => .error e
           | .ok _ => .ok rows3) := by
  set tIdx := (List.replicate p (List.range len0)).flatten with htIdx
  set eps2 := tIdx.map (fun t => (List.replicate (L * p) 0).getD t 0) with heps2
  have heps : eps2 = tIdx.map (fun _ => 0) := by
    rw [heps2]
    exact List.map_congr_left (fun t _ => getD_replicate_self (L * p) 0 t)
  have hlenT : tIdx.length = p * len0 := flatten_replicate_range_length p len0
  have hlenE : eps2.length = p * len0 := by rw [heps2, List.length_map, hlenT]
  have hrows : List.zipWith (fun e t => s.buf e t) eps2 tIdx =
      tIdx.map (fun t => s.buf 0 t) := by
    rw [heps, List.zipWith_map_left, List.zipWith_same]
  have hng := newGoalsFor_offline s cfg d tIdx eps2 heps (p * len0) hlenE
  show phase3 s cfg cR mG d eps2 (List.range eps2.length) tIdx (some L)
    (some p) (some nsg) = _
  unfold phase3
  rw [hlenE, hng]
  have hrl : (List.zipWith (fun e t => s.buf e t) eps2 tIdx).length = p * len0 := by
    rw [List.length_zipWith, hlenE, hlenT]
    exact Nat.min_self _
  have hkey : recomputeRewards cfg cR mG
      (relabelRows (List.zipWith (fun e t => s.buf e t) eps2 tIdx)
        (List.range (p * len0)) (offlineGoals cfg s d (p * len0)))
      (List.range (p * len0)) = offlineAssembled cfg cR mG s d p len0 := by
    rw [show List.range (p * len0) =
      List.range (List.zipWith (fun e t => s.buf e t) eps2 tIdx).length by rw [hrl]]
    rw [relabel_recompute_eq cfg cR mG _ _
      (by rw [hrl]; simp [offlineGoals]) (by rw [hrl]; exact hpos)]
    rw [hrows]
    rfl
  exact congrArg (fun rows2 : List (StoredStep O A G I) =>
    (match checkCounts1 cfg.strategy (some L) (some p) rows2.length with
     | Except.error e => Except.error e
     | Except.ok _ =>
       (match selectStage cfg (some L) (some p) (some nsg) rows2 with
        | Except.error e => Except.error e
        | Except.ok rows3 =>
          (match checkCounts2 cfg.strategy (some L) (some nsg) rows3.length with
           | Except.error e => Except.error e
           | Except.ok _ => Except.ok rows3)))) hkey

/-- The offline sampling run under a valid preselection resolution and a
nonempty HER index set: it is the check / select / check tail applied to the
assembled batch `offlineAssembled`. -/
theorem offline_run_eq {O A G I : Type} (s : HerState O A G I) (cfg : HerConfig)
    (cR : G → G → I → ℤ) (mG : G → G → I → G) (d : Draws G) (p : Nat)
    (hres : resolvePreselection cfg cfg.nSampledGoal = .ok p)
    (hNE : 0 < s.episodeLengths 0 * p)
    (hfut : cfg.strategy = .future → 2 ≤ s.episodeLengths 0) :
    sampleOffline s cfg cR mG d =
      (match checkCounts1 cfg.strategy (some (s.episodeLengths 0)) (some p)
          (offlineAssembled cfg cR mG s d p (offlineLen0 cfg s)).length with
       | .error e => .error e
       | .ok _ =>
         match selectStage cfg (some (s.episodeLengths 0)) (some p)
             (some cfg.nSampledGoal)
             (offlineAssembled cfg cR mG s d p (offlineLen0 cfg s)) with
         | .error e => .error e
         | .ok rows3 =>
           match checkCounts2 cfg.strategy (some (s.episodeLengths 0))
               (some cfg.nSampledGoal) rows3.length with
           | .error e => .error e
           | .ok _ => .ok rows3) := by
  have h1 : phase1 s cfg d none none false (some cfg.nSampledGoal) =
      .ok (.offlineSel (List.replicate (s.episodeLengths 0 * p) 0)
        (List.range (s.episodeLengths 0 * p)) (s.episodeLengths 0) p) := by
    simp [phase1, hres]
  have hp : 0 < p := by
    rcases Nat.eq_zero_or_pos p with h | h
    · subst h; simp at hNE
    · exact h
  have hL : 0 < s.episodeLengths 0 := by
    rcases Nat.eq_zero_or_pos (s.episodeLengths 0) with h | h
    · rw [h] at hNE; simp at hNE
    · exact h
  have hp0 : 0 < p * offlineLen0 cfg s := by
    refine Nat.mul_pos hp ?_
    rw [offlineLen0]
    by_cases hf : cfg.strategy = .future
    · have := hfut hf
      rw [if_pos hf]
      omega
    · rw [if_neg hf]
      omega
  unfold sampleOffline
  rw [sampleTransitions_offline_unfold s cfg cR mG d cfg.nSampledGoal _ _ _ _ h1]
  obtain ⟨hher, hlen0⟩ := futureFilter_offline s cfg.strategy
    (s.episodeLengths 0 * p)
  have hherEq : (futureFilter s cfg.strategy
      (List.replicate (s.episodeLengths 0 * p) 0)
      (List.range (s.episodeLengths 0 * p))).1 =
      List.range (s.episodeLengths 0 * p) := by
    rw [hher, if_neg]
    rintro ⟨hf, hle⟩
    have := hfut hf
    omega
  have hlen0Eq : (futureFilter s cfg.strategy
      (List.replicate (s.episodeLengths 0 * p) 0)
      (List.range (s.episodeLengths 0 * p))).2.getD 0 0 = offlineLen0 cfg s := by
    rw [hlen0 hNE, offlineLen0]
    by_cases hf : cfg.strategy = .future
    · have := hfut hf
      rw [if_pos ⟨hf, by omega⟩, if_pos hf]
    · rw [if_neg (fun hc => hf hc.1), if_neg hf]
  simp only [hherEq, hlen0Eq, List.length_range]
  rw [if_neg (by omega)]
  exact phase3_offline s cfg cR mG d p (offlineLen0 cfg s) (s.episodeLengths 0)
    cfg.nSampledGoal hp0

theorem offlineAssembled_length {O A G I : Type} (cfg : HerConfig)
    (cR : G → G → I → ℤ) (mG : G → G → I → G) (s : HerState O A G I)
    (d : Draws G) (p len0 : Nat) :
    (offlineAssembled cfg cR mG s d p len0).length = p * len0 := by
  simp only [offlineAssembled]
  rw [List.length_zipWith, List.length_map, flatten_replicate_range_length]
  simp [offlineGoals]

theorem offlineAssembled_getElem {O A G I : Type} (cfg : HerConfig)
    (cR : G → G → I → ℤ) (mG : G → G → I → G) (s : HerState O A G I)
    (d : Draws G) (p len0 : Nat) (j : Nat) (hj : j < p * len0) :
    (offlineAssembled cfg cR mG s d p len0).get
      ⟨j, by rw [offlineAssembled_length]; exact hj⟩ =
      rowRelabel cfg cR mG (s.buf 0 (j % len0))
        (match cfg.strategy with
         | .final => (s.buf 0 (s.episodeLengths 0 - 1)).achievedGoal
         | .future => (s.buf 0 (d.goalDraw j)).achievedGoal
         | .episode => (s.buf 0 (d.goalDraw j)).achievedGoal
         | _ => d.dgDraw j) := by
  have hlt : j < ((List.replicate p (List.range len0)).flatten).length := by
    rw [flatten_replicate_range_length]; exact hj
  have htid : ((List.replicate p (List.range len0)).flatten)[j] = j % len0 := by
    have := flatten_replicate_range_getD len0 p j hj
    rwa [List.getD_eq_getElem _ _ hlt] at this
  rw [List.get_eq_getElem]
  simp only [offlineAssembled]
  rw [List.getElem_zipWith]
  congr 1
  · rw [List.getElem_map, htid]
  · simp only [offlineGoals]
    rw [List.getElem_map, List.getElem_range]

/-- The offline run with any strategy other than PAST_DESIRED_SUCCESS (and an
unset preselection attribute): every count assertion passes and the selection
stage returns the assembled batch unchanged. -/
theorem offline_run_nonPDS {O A G I : Type} (s : HerState O A G I)
    (cfg : HerConfig) (cR : G → G → I → ℤ) (mG : G → G → I → G) (d : Draws G)
    (hnp : cfg.strategy ≠ .pastDesiredSuccess)
    (hattr : cfg.nSampledGoalPreselection = none)
    (hNE : 0 < s.episodeLengths 0 * cfg.nSampledGoal)
    (hfut : cfg.strategy = .future → 2 ≤ s.episodeLengths 0) :
    sampleOffline s cfg cR mG d =
      .ok (offlineAssembled cfg cR mG s d cfg.nSampledGoal
        (offlineLen0 cfg s)) := by
  have hres : resolvePreselection cfg cfg.nSampledGoal = .ok cfg.nSampledGoal := by
    simp [resolvePreselection, hnp, hattr]
  rw [offline_run_eq s cfg cR mG d cfg.nSampledGoal hres hNE hfut]
  have hlen := offlineAssembled_length cfg cR mG s d cfg.nSampledGoal
    (offlineLen0 cfg s)
  have hc1 : checkCounts1 cfg.strategy (some (s.episodeLengths 0))
      (some cfg.nSampledGoal)
      (offlineAssembled cfg cR mG s d cfg.nSampledGoal
        (offlineLen0 cfg s)).length = .ok () := by
    rw [hlen]
    simp only [checkCounts1]
    by_cases hf : cfg.strategy = .future
    · rw [if_pos hf, if_pos]
      rw [offlineLen0, if_pos hf, Nat.mul_comm]
    · rw [if_neg hf, if_pos]
      rw [offlineLen0, if_neg hf, Nat.mul_comm]
  have hsel : selectStage cfg (some (s.episodeLengths 0))
      (some cfg.nSampledGoal) (some cfg.nSampledGoal)
      (offlineAssembled cfg cR mG s d cfg.nSampledGoal (offlineLen0 cfg s)) =
      .ok (offlineAssembled cfg cR mG s d cfg.nSampledGoal
        (offlineLen0 cfg s)) := by
    simp [selectStage, hnp]
  have hc2 : checkCounts2 cfg.strategy (some (s.episodeLengths 0))
      (some cfg.nSampledGoal)
      (offlineAssembled cfg cR mG s d cfg.nSampledGoal
        (offlineLen0 cfg s)).length = .ok () := by
    rw [hlen]
    simp only [checkCounts2]
    by_cases hf : cfg.strategy = .future
    · rw [if_pos hf, if_pos]
      rw [offlineLen0, if_pos hf, Nat.mul_comm]
    · rw [if_neg hf, if_pos]
      rw [offlineLen0, if_neg hf, Nat.mul_comm]
  simp only [hc1, hsel, hc2]

/-! Claim theorems. -/

/-- C9: for every construction of `VecHerReplayBuffer` with a boolean
`handle_timeout_termination` argument, the positional list forwarded to each
per-instance `HerReplayBuffer` is misaligned with the parameter order —
`goal_selection_strategy` lands in `n_sampled_goal_preselection`,
`online_sampling` in `desired_goal_buffer_size` and
`handle_timeout_termination` in `goal_selection_strategy` — so the
per-instance strategy validation rejects the boolean and `__init__` raises for
every positive number of environments. -/
theorem c9_vec_her_init_misaligned_raises (nEnvs : Nat) (bufferSize : Int)
    (bufferSizeI device replayBuffer maxEpisodeLength nSampledGoal
     goalSelectionStrategy onlineSampling : PyVal)
    (handleTimeoutTermination : Bool) :
    ((herInitBind (vecHerForward bufferSizeI device replayBuffer
        maxEpisodeLength nSampledGoal goalSelectionStrategy onlineSampling
        (.pyBool handleTimeoutTermination))).n_sampled_goal_preselection
        = goalSelectionStrategy ∧
      (herInitBind (vecHerForward bufferSizeI device replayBuffer
        maxEpisodeLength nSampledGoal goalSelectionStrategy onlineSampling
        (.pyBool handleTimeoutTermination))).desired_goal_buffer_size
        = onlineSampling ∧
      (herInitBind (vecHerForward bufferSizeI device replayBuffer
        maxEpisodeLength nSampledGoal goalSelectionStrategy onlineSampling
        (.pyBool handleTimeoutTermination))).goal_selection_strategy
        = .pyBool handleTimeoutTermination) ∧
    vecHerInit (nEnvs + 1) bufferSize device replayBuffer maxEpisodeLength
      nSampledGoal goalSelectionStrategy onlineSampling
      (.pyBool handleTimeoutTermination) =
      .error (.assertionError "Invalid goal selection strategy") := by
  refine ⟨⟨rfl, rfl, rfl⟩, ?_⟩
  simp only [vecHerInit, List.range_succ_eq_map, List.foldlM_cons,
    vecHerInitInstance, herInitValidate, herInitBind, vecHerForward]
  rfl

/-- C1 (code bug): the claim describes the intended online sampling contract
(batch of exactly `B` entries, `⌊B·n/(n+1)⌋` of them relabeled), but every
online `sample` call fails: the post-relabeling assertion block (lines
441-445) unconditionally evaluates the local `episode_length`, which is
assigned only on the offline branch, so online sampling always raises
`UnboundLocalError` before returning — for every buffer state, strategy,
configuration, batch size and random draw. -/
theorem c1_online_sample_always_raises {O A G I : Type} (s : HerState O A G I)
    (cfg : HerConfig) (cR : G → G → I → ℤ) (mG : G → G → I → G) (d : Draws G)
    (B : Nat) (env? : Option Unit) :
    sampleOnline s cfg cR mG d B env? =
      .error (.unboundLocalError "episode_length") := by
  unfold sampleOnline sampleTransitions phase1 phase3
  rcases cfg with ⟨n, p, strat, onl, ht, mg⟩
  cases strat <;>
    simp [newGoalsFor, sampleGoals, checkCounts1, futureFilter]

/-- C10: with timeout handling enabled, an `add` whose transition has
`done = True` and `info["TimeLimit.truncated"] = True` stores `done = 0`
(non-terminal) in the episode buffer, yet still closes the episode in the same
call: the episode length is recorded for the active slot, `pos` advances and
the in-episode cursor resets to 0 — episode closing follows the raw done
signal, not the timeout-adjusted one. -/
theorem c10_timeout_zeroes_done_still_closes {O A G I : Type} (cfg : HerConfig)
    (cR : G → G → I → ℤ) (mG : G → G → I → G) (d : Draws G) (emptyInfo : I)
    (s : HerState O A G I) (replay : List (StoredStep O A G I))
    (x : AddInput O A G I) (h1 : cfg.handleTimeoutTermination = true)
    (h2 : cfg.onlineSampling = true) (h3 : x.done = true)
    (h4 : s.pos < s.maxEpisodeStored) :
    ∃ s', add cfg cR mG d emptyInfo s replay x true = .ok (s', replay) ∧
      (s'.buf s.pos s.currentIdx).done = 0 ∧
      s'.currentIdx = 0 ∧
      s'.pos = (s.pos + 1) % s.maxEpisodeStored ∧
      s'.episodeLengths s.pos = s.currentIdx + 1 := by
  have heq : add cfg cR mG d emptyInfo s replay x true =
      .ok ({ storeEpisode (addStore cfg s x true) with episodeSteps := 0 },
        replay) := by
    simp [add, addStore, storeEpisode, h2, h3]
  have h4' : (addStore cfg s x true).pos < (addStore cfg s x true).maxEpisodeStored := h4
  refine ⟨_, heq, ?_, ?_, ?_, ?_⟩
  · simp [storeEpisode_buf, addStore, addInputStored, h1, h3, bool01]
  · simp [storeEpisode_currentIdx]
  · simpa [addStore] using storeEpisode_pos (addStore cfg s x true) h4'
  · simp [storeEpisode_lengths, addStore]

/-- Witness for C10 at a concrete input. -/
theorem c10_witness :
    (tCfgFinal.handleTimeoutTermination = true ∧ tCfgFinal.onlineSampling = true ∧
      tAddDone.done = true ∧ tState.pos < tState.maxEpisodeStored) ∧
    (∃ s', add tCfgFinal tCR tMG tDraws 0 tState [] tAddDone true = .ok (s', []) ∧
      (s'.buf tState.pos tState.currentIdx).done = 0 ∧
      s'.currentIdx = 0 ∧
      s'.pos = (tState.pos + 1) % tState.maxEpisodeStored ∧
      s'.episodeLengths tState.pos = tState.currentIdx + 1) :=
  ⟨⟨rfl, rfl, rfl, by decide⟩,
    c10_timeout_zeroes_done_still_closes tCfgFinal tCR tMG tDraws 0 tState []
      tAddDone rfl rfl rfl (by decide)⟩

/-- C8: after every valid online-mode `add`, `size()` equals the sum of the
recorded episode lengths; a terminal add (raw `done = True`, or the step
counter reaching `max_episode_length`) closes exactly one episode — recording
the final length for the active slot, leaving every other slot's record
unchanged, advancing `pos` modulo the capacity — and resets the in-episode
cursor `current_idx` to 0, while a non-terminal add changes no episode-length
record and no `pos`. -/
theorem c8_add_size_and_episode_close {O A G I : Type} (cfg : HerConfig)
    (cR : G → G → I → ℤ) (mG : G → G → I → G) (d : Draws G) (emptyInfo : I)
    (s : HerState O A G I) (replay : List (StoredStep O A G I))
    (x : AddInput O A G I) (truncated : Bool)
    (h2 : cfg.onlineSampling = true) (h4 : s.pos < s.maxEpisodeStored) :
    ∃ s', add cfg cR mG d emptyInfo s replay x truncated = .ok (s', replay) ∧
      size s' = ∑ i in Finset.range s'.maxEpisodeStored, s'.episodeLengths i ∧
      ((x.done = true ∨ s.maxEpisodeLength ≤ s.episodeSteps + 1) →
        s'.episodeLengths s.pos = s.currentIdx + 1 ∧
        (∀ j, j ≠ s.pos → s'.episodeLengths j = s.episodeLengths j) ∧
        s'.pos = (s.pos + 1) % s.maxEpisodeStored ∧
        s'.currentIdx = 0) ∧
      (¬(x.done = true ∨ s.maxEpisodeLength ≤ s.episodeSteps + 1) →
        (∀ j, s'.episodeLengths j = s.episodeLengths j) ∧
        s'.pos = s.pos ∧ s'.full = s.full ∧ s'.currentIdx = s.currentIdx + 1) := by
  by_cases hterm : x.done = true ∨ s.maxEpisodeLength ≤ s.episodeSteps + 1
  · have heq : add cfg cR mG d emptyInfo s replay x truncated =
        .ok ({ storeEpisode (addStore cfg s x truncated) with episodeSteps := 0 },
          replay) := by
      rcases hterm with h3 | h3 <;> simp [add, addStore, storeEpisode, h2, h3]
    have h4' : (addStore cfg s x truncated).pos <
        (addStore cfg s x truncated).maxEpisodeStored := h4
    refine ⟨_, heq, rfl, fun _ => ⟨?_, fun j hj => ?_, ?_, ?_⟩,
      fun hc => absurd hterm hc⟩
    · simp [storeEpisode_lengths, addStore]
    · simp [storeEpisode_lengths, addStore, hj]
    · simpa [addStore] using
        storeEpisode_pos (addStore cfg s x truncated) h4'
    · simp [storeEpisode_currentIdx]
  · have heq : add cfg cR mG d emptyInfo s replay x truncated =
        .ok (addStore cfg s x truncated, replay) := by
      simp [add, addStore, h2, hterm]
    exact ⟨_, heq, rfl, fun hc => absurd hc hterm,
      fun _ => ⟨fun _ => rfl, rfl, rfl, rfl⟩⟩

/-- C6: starting from a fresh store, after running `max_episode_stored + 1`
complete episodes the `full` flag is true and slot 0 holds the newest episode
(its recorded length and every stored step); and whenever the store is full,
the online episode-index selection never returns the in-progress slot `pos`,
for every outcome of the random draw within the `randint(1, n_episodes_stored)`
range. -/
theorem c6_wraparound_and_selection {O A G I : Type} (cfg : HerConfig)
    (cR : G → G → I → ℤ) (mG : G → G → I → G) (d : Draws G) (emptyInfo : I)
    (s0 : HerState O A G I) (rp : List (StoredStep O A G I))
    (es : List (List (AddInput O A G I)))
    (h2 : cfg.onlineSampling = true)
    (hfresh : s0.pos = 0 ∧ s0.full = false ∧ s0.currentIdx = 0 ∧
      s0.episodeSteps = 0)
    (hmax : 1 ≤ s0.maxEpisodeStored)
    (hcount : es.length = s0.maxEpisodeStored + 1)
    (hoks : ∀ ep ∈ es, EpisodeOK s0.maxEpisodeLength ep)
    (hne : es ≠ []) :
    (∃ s', runEpisodes cfg cR mG d emptyInfo es (s0, rp) = .ok (s', rp) ∧
      s'.full = true ∧
      s'.episodeLengths 0 = (es.getLast hne).length ∧
      ∀ t (ht : t < (es.getLast hne).length),
        s'.buf 0 t = addInputStored cfg ((es.getLast hne).get ⟨t, ht⟩) false) ∧
    (∀ (s2 : HerState O A G I) (epD : Nat → Nat) (B : Nat),
      s2.full = true → s2.pos < s2.maxEpisodeStored →
      (∀ i, 1 ≤ epD i ∧ epD i < nEpisodesStored s2) →
      ∀ e ∈ onlineEpisodeIndices s2 epD B, e ≠ s2.pos) := by
  obtain ⟨hpos0, hfull0, hcur0, hsteps0⟩ := hfresh
  constructor
  · -- Split off the newest episode.
    obtain ⟨front, lastEp, rfl⟩ : ∃ front lastEp, es = front ++ [lastEp] :=
      ⟨es.dropLast, es.getLast hne, (List.dropLast_append_getLast hne).symm⟩
    have hlast : (front ++ [lastEp]).getLast hne = lastEp :=
      List.getLast_concat _
    have hfrontlen : front.length = s0.maxEpisodeStored := by
      simp at hcount
      omega
    obtain ⟨s1, hrun1, h1max, h1len, h1cur, h1steps, h1pos, h1full⟩ :=
      runEpisodes_inv cfg cR mG d emptyInfo h2 front s0 rp
        (fun e he => hoks e (by simp [he])) hcur0 hsteps0 (by omega)
    have h1pos' : s1.pos = 0 := by
      rw [h1pos, hpos0, hfrontlen]
      simp
    have h1full' : s1.full = true := by
      rw [h1full, hpos0, hfrontlen, hfull0]
      simp
    have hokl : EpisodeOK s1.maxEpisodeLength lastEp := by
      rw [h1len]
      exact hoks lastEp (by simp)
    have hrun2 := runAdds_episode cfg cR mG d emptyInfo h2 lastEp s1 rp hokl
      h1cur h1steps
    refine ⟨{ storeEpisode (addList cfg s1 lastEp) with episodeSteps := 0 },
      ?_, ?_, ?_, ?_⟩
    · rw [runEpisodes_append, hrun1]
      show runEpisodes cfg cR mG d emptyInfo [lastEp] (s1, rp) = _
      rw [runEpisodes, hrun2]
      rfl
    · show (storeEpisode (addList cfg s1 lastEp)).full = true
      rw [storeEpisode_full, addList_full, h1full']
      rfl
    · show (storeEpisode (addList cfg s1 lastEp)).episodeLengths 0 = _
      rw [storeEpisode_lengths, hlast]
      simp only [addList_pos, addList_currentIdx, h1pos', h1cur]
      simp
    · intro t ht'
      have ht : t < lastEp.length := by rwa [hlast] at ht'
      show (storeEpisode (addList cfg s1 lastEp)).buf 0 t =
        addInputStored cfg (((front ++ [lastEp]).getLast hne).get ⟨t, ht'⟩) false
      have hg : ((front ++ [lastEp]).getLast hne).get ⟨t, ht'⟩ =
          lastEp.get ⟨t, ht⟩ := by
        rw [List.get_of_eq hlast]
      rw [storeEpisode_buf, hg]
      have hw := addList_buf_written cfg lastEp s1 t ht
      rw [h1pos', h1cur] at hw
      simpa using hw
  · -- The full-store selection always avoids `pos`.
    intro s2 epD B hfull hpos hdraw e he
    rw [onlineEpisodeIndices, if_pos hfull] at he
    simp only [List.mem_map, List.mem_range] at he
    obtain ⟨i, -, rfl⟩ := he
    obtain ⟨hd1, hd2⟩ := hdraw i
    rw [nEpisodesStored, if_pos hfull] at hd2
    intro hcontra
    rcases Nat.lt_or_ge (epD i + s2.pos) s2.maxEpisodeStored with hlt | hge
    · rw [nEpisodesStored, if_pos hfull, Nat.mod_eq_of_lt hlt] at hcontra
      omega
    · rw [nEpisodesStored, if_pos hfull, Nat.mod_eq_sub_mod hge,
        Nat.mod_eq_of_lt (by omega)] at hcontra
      omega

/-- Witness for C6 at a concrete input: capacity 2, three complete episodes. -/
theorem c6_witness :
    (tCfgFinal.onlineSampling = true ∧
      (tState.pos = 0 ∧ tState.full = false ∧ tState.currentIdx = 0 ∧
        tState.episodeSteps = 0) ∧
      1 ≤ tState.maxEpisodeStored ∧
      tEs.length = tState.maxEpisodeStored + 1 ∧
      (∀ ep ∈ tEs, EpisodeOK tState.maxEpisodeLength ep) ∧ tEs ≠ []) ∧
    ((∃ s', runEpisodes tCfgFinal tCR tMG tDraws 0 tEs (tState, []) =
        .ok (s', []) ∧
      s'.full = true ∧
      s'.episodeLengths 0 = (tEs.getLast (by decide)).length ∧
      ∀ t (ht : t < (tEs.getLast (by decide)).length),
        s'.buf 0 t =
          addInputStored tCfgFinal ((tEs.getLast (by decide)).get ⟨t, ht⟩) false) ∧
    (∀ (s2 : HerState ℤ ℤ ℤ ℤ) (epD : Nat → Nat) (B : Nat),
      s2.full = true → s2.pos < s2.maxEpisodeStored →
      (∀ i, 1 ≤ epD i ∧ epD i < nEpisodesStored s2) →
      ∀ e ∈ onlineEpisodeIndices s2 epD B, e ≠ s2.pos)) :=
  ⟨⟨rfl, ⟨rfl, rfl, rfl, rfl⟩, by decide, by decide, by decide, by decide⟩,
    c6_wraparound_and_selection tCfgFinal tCR tMG tDraws 0 tState [] tEs rfl
      ⟨rfl, rfl, rfl, rfl⟩ (by decide) (by decide) (by decide) (by decide)⟩

/-- Witness for C8 at a concrete input. -/
theorem c8_witness :
    (tCfgFinal.onlineSampling = true ∧ tState.pos < tState.maxEpisodeStored) ∧
    (∃ s', add tCfgFinal tCR tMG tDraws 0 tState [] tAddDone false = .ok (s', []) ∧
      size s' = ∑ i in Finset.range s'.maxEpisodeStored, s'.episodeLengths i ∧
      ((tAddDone.done = true ∨
          tState.maxEpisodeLength ≤ tState.episodeSteps + 1) →
        s'.episodeLengths tState.pos = tState.currentIdx + 1 ∧
        (∀ j, j ≠ tState.pos → s'.episodeLengths j = tState.episodeLengths j) ∧
        s'.pos = (tState.pos + 1) % tState.maxEpisodeStored ∧
        s'.currentIdx = 0) ∧
      (¬(tAddDone.done = true ∨
          tState.maxEpisodeLength ≤ tState.episodeSteps + 1) →
        (∀ j, s'.episodeLengths j = tState.episodeLengths j) ∧
        s'.pos = tState.pos ∧ s'.full = tState.full ∧
        s'.currentIdx = tState.currentIdx + 1)) :=
  ⟨⟨rfl, by decide⟩,
    c8_add_size_and_episode_close tCfgFinal tCR tMG tDraws 0 tState [] tAddDone
      false rfl (by decide)⟩

/-- Offline FUTURE sampling of a stored episode of length at most 1 returns
the explicit empty result (lines 366-370). -/
theorem offline_future_short {O A G I : Type} (s : HerState O A G I)
    (cfg : HerConfig) (cR : G → G → I → ℤ) (mG : G → G → I → G) (d : Draws G)
    (hf : cfg.strategy = .future)
    (hattr : cfg.nSampledGoalPreselection = none)
    (hL : s.episodeLengths 0 ≤ 1) :
    sampleOffline s cfg cR mG d = .ok [] := by
  have hnp : cfg.strategy ≠ .pastDesiredSuccess := by simp [hf]
  have hres : resolvePreselection cfg cfg.nSampledGoal = .ok cfg.nSampledGoal := by
    simp [resolvePreselection, hnp, hattr]
  have h1 : phase1 s cfg d none none false (some cfg.nSampledGoal) =
      .ok (.offlineSel (List.replicate (s.episodeLengths 0 * cfg.nSampledGoal) 0)
        (List.range (s.episodeLengths 0 * cfg.nSampledGoal))
        (s.episodeLengths 0) cfg.nSampledGoal) := by
    simp [phase1, hres]
  unfold sampleOffline
  rw [sampleTransitions_offline_unfold s cfg cR mG d cfg.nSampledGoal _ _ _ _ h1]
  obtain ⟨hher, -⟩ := futureFilter_offline s cfg.strategy
    (s.episodeLengths 0 * cfg.nSampledGoal)
  have hherEq : (futureFilter s cfg.strategy
      (List.replicate (s.episodeLengths 0 * cfg.nSampledGoal) 0)
      (List.range (s.episodeLengths 0 * cfg.nSampledGoal))).1 = [] := by
    rw [hher, if_pos ⟨hf, hL⟩]
  simp only [hherEq, List.length_nil]
  rfl

/-- C7: offline sampling of an episode of length 1 under FUTURE is not an
error — it returns the explicit empty transition set, and
`_sample_her_transitions` appends nothing to the downstream replay buffer. -/
theorem c7_future_length_one_silent_empty {O A G I : Type}
    (s : HerState O A G I) (cfg : HerConfig) (cR : G → G → I → ℤ)
    (mG : G → G → I → G) (d : Draws G) (emptyInfo : I)
    (replay : List (StoredStep O A G I))
    (hf : cfg.strategy = .future)
    (hattr : cfg.nSampledGoalPreselection = none)
    (hL : s.episodeLengths 0 = 1) :
    sampleOffline s cfg cR mG d = .ok [] ∧
    sampleHerTransitions s cfg cR mG d emptyInfo replay = .ok replay := by
  have h := offline_future_short s cfg cR mG d hf hattr (by omega)
  refine ⟨h, ?_⟩
  unfold sampleHerTransitions
  rw [h]
  simp

/-- Witness for C7 at a concrete input. -/
theorem c7_witness :
    (tCfgFuture.strategy = .future ∧
      tCfgFuture.nSampledGoalPreselection = none ∧
      tStateL1.episodeLengths 0 = 1) ∧
    (sampleOffline tStateL1 tCfgFuture tCR tMG tDraws = .ok [] ∧
      sampleHerTransitions tStateL1 tCfgFuture tCR tMG tDraws 0 [tStep] =
        .ok [tStep]) :=
  ⟨⟨rfl, rfl, rfl⟩,
    c7_future_length_one_silent_empty tStateL1 tCfgFuture tCR tMG tDraws 0
      [tStep] rfl rfl rfl⟩

/-- C4 (amended): for offline sampling with a strategy other than
PAST_DESIRED_SUCCESS, the run fails with the configuration assertion whenever
the `n_sampled_goal_preselection` attribute is set — even if it equals
`n_sampled_goal` — and succeeds with no ranking/filtering step exactly when it
is unset (the effective preselection count then equals `n_sampled_goal` and
the selection stage returns the assembled batch unchanged). -/
theorem c4_preselection_config {O A G I : Type} (s : HerState O A G I)
    (cfg : HerConfig) (cR : G → G → I → ℤ) (mG : G → G → I → G) (d : Draws G)
    (hnp : cfg.strategy ≠ .pastDesiredSuccess) :
    (∀ q, cfg.nSampledGoalPreselection = some q →
      sampleOffline s cfg cR mG d = .error (.assertionError
        "Not using PAST_DESIRED_SUCCESS strategy, but n_sampled_goal_preselection given")) ∧
    (cfg.nSampledGoalPreselection = none →
      0 < s.episodeLengths 0 * cfg.nSampledGoal →
      (cfg.strategy = .future → 2 ≤ s.episodeLengths 0) →
      sampleOffline s cfg cR mG d =
        .ok (offlineAssembled cfg cR mG s d cfg.nSampledGoal
          (offlineLen0 cfg s))) := by
  constructor
  · intro q hq
    have hres : resolvePreselection cfg cfg.nSampledGoal = .error (.assertionError
        "Not using PAST_DESIRED_SUCCESS strategy, but n_sampled_goal_preselection given") := by
      simp [resolvePreselection, hnp, hq]
    unfold sampleOffline sampleTransitions
    simp [phase1, hres]
  · intro hattr hNE hfut
    exact offline_run_nonPDS s cfg cR mG d hnp hattr hNE hfut

/-- Counterexample for C4 as stated: with strategy FINAL and
`n_sampled_goal_preselection = 4 = n_sampled_goal`, offline sampling does not
succeed — it fails the configuration assertion although the preselection count
equals `n_sampled_goal` exactly. -/
theorem c4_counterexample :
    sampleOffline tStateL3 tCfgFinalOffPre tCR tMG tDraws =
      .error (.assertionError
        "Not using PAST_DESIRED_SUCCESS strategy, but n_sampled_goal_preselection given") ∧
    tCfgFinalOffPre.nSampledGoalPreselection =
      some tCfgFinalOffPre.nSampledGoal := by
  constructor
  · decide
  · rfl

/-- Witness for C4 at a concrete input with the attribute unset. -/
theorem c4_witness :
    (tCfgFinalOff.strategy ≠ .pastDesiredSuccess) ∧
    ((∀ q, tCfgFinalOff.nSampledGoalPreselection = some q →
      sampleOffline tStateL3 tCfgFinalOff tCR tMG tDraws = .error (.assertionError
        "Not using PAST_DESIRED_SUCCESS strategy, but n_sampled_goal_preselection given")) ∧
    (tCfgFinalOff.nSampledGoalPreselection = none →
      0 < tStateL3.episodeLengths 0 * tCfgFinalOff.nSampledGoal →
      (tCfgFinalOff.strategy = .future → 2 ≤ tStateL3.episodeLengths 0) →
      sampleOffline tStateL3 tCfgFinalOff tCR tMG tDraws =
        .ok (offlineAssembled tCfgFinalOff tCR tMG tStateL3 tDraws
          tCfgFinalOff.nSampledGoal (offlineLen0 tCfgFinalOff tStateL3)))) :=
  ⟨by decide,
    c4_preselection_config tStateL3 tCfgFinalOff tCR tMG tDraws (by decide)⟩

/-- C2: under FUTURE (with the default `modify_goal = False`), every relabeled
offline transition built from step `t = j mod (L-1)` of the stored episode of
length `L` carries a substitute desired goal equal to the achieved goal of a
step strictly after `t` and strictly before `L`, with the reward recomputed on
`(next_achieved_goal, new goal, info)`; and an episode of length 1 is filtered
out of the HER-eligible set and produces no virtual transition at all. -/
theorem c2_future_strictly_later {O A G I : Type} (s : HerState O A G I)
    (cfg : HerConfig) (cR : G → G → I → ℤ) (mG : G → G → I → G) (d : Draws G)
    (hf : cfg.strategy = .future)
    (hattr : cfg.nSampledGoalPreselection = none)
    (hmod : cfg.modifyGoal = false) :
    ((2 ≤ s.episodeLengths 0) → 0 < cfg.nSampledGoal →
      (∀ j, j < cfg.nSampledGoal * (s.episodeLengths 0 - 1) →
        j % (s.episodeLengths 0 - 1) + 1 ≤ d.goalDraw j ∧
        d.goalDraw j < s.episodeLengths 0) →
      ∃ rows, sampleOffline s cfg cR mG d = .ok rows ∧
        rows.length = cfg.nSampledGoal * (s.episodeLengths 0 - 1) ∧
        ∀ j (hj : j < rows.length),
          ∃ sIdx, j % (s.episodeLengths 0 - 1) < sIdx ∧
            sIdx < s.episodeLengths 0 ∧
            (rows.get ⟨j, hj⟩).desiredGoal = (s.buf 0 sIdx).achievedGoal ∧
            (rows.get ⟨j, hj⟩).action =
              (s.buf 0 (j % (s.episodeLengths 0 - 1))).action ∧
            (rows.get ⟨j, hj⟩).reward =
              cR (s.buf 0 (j % (s.episodeLengths 0 - 1))).nextAchievedGoal
                ((s.buf 0 sIdx).achievedGoal)
                ((s.buf 0 (j % (s.episodeLengths 0 - 1))).info)) ∧
    (s.episodeLengths 0 = 1 → sampleOffline s cfg cR mG d = .ok []) := by
  constructor
  · intro hL hn hdraw
    have hnp : cfg.strategy ≠ .pastDesiredSuccess := by simp [hf]
    have hlen0 : offlineLen0 cfg s = s.episodeLengths 0 - 1 := by
      rw [offlineLen0, if_pos hf]
    have hrun := offline_run_nonPDS s cfg cR mG d hnp hattr
      (Nat.mul_pos (by omega) hn) (fun _ => hL)
    refine ⟨_, hrun, ?_, ?_⟩
    · rw [offlineAssembled_length, hlen0]
    · intro j hj
      have hj' : j < cfg.nSampledGoal * (s.episodeLengths 0 - 1) := by
        rw [offlineAssembled_length, hlen0] at hj
        exact hj
      have hge : (offlineAssembled cfg cR mG s d cfg.nSampledGoal
          (offlineLen0 cfg s)).get ⟨j, hj⟩ =
          rowRelabel cfg cR mG (s.buf 0 (j % offlineLen0 cfg s))
            (match cfg.strategy with
             | .final => (s.buf 0 (s.episodeLengths 0 - 1)).achievedGoal
             | .future => (s.buf 0 (d.goalDraw j)).achievedGoal
             | .episode => (s.buf 0 (d.goalDraw j)).achievedGoal
             | _ => d.dgDraw j) :=
        offlineAssembled_getElem cfg cR mG s d cfg.nSampledGoal
          (offlineLen0 cfg s) j (by rw [hlen0]; exact hj')
      rw [hf] at hge
      obtain ⟨hd1, hd2⟩ := hdraw j hj'
      refine ⟨d.goalDraw j, by omega, hd2, ?_, ?_, ?_⟩
      · rw [hge]
        simp [rowRelabel, hmod]
      · rw [hge]
        simp [rowRelabel, hmod, hlen0]
      · rw [hge]
        simp [rowRelabel, hmod, hlen0]
  · intro hL1
    exact offline_future_short s cfg cR mG d hf hattr (by omega)

/-- Witness for C2 at a concrete input (episode length 3, n_sampled_goal 2). -/
theorem c2_witness :
    (tCfgFuture.strategy = .future ∧
      tCfgFuture.nSampledGoalPreselection = none ∧
      tCfgFuture.modifyGoal = false) ∧
    (∃ rows, sampleOffline tStateL3 tCfgFuture tCR tMG tDrawsC2 = .ok rows ∧
      rows.length = tCfgFuture.nSampledGoal * (tStateL3.episodeLengths 0 - 1) ∧
      ∀ j (hj : j < rows.length),
        ∃ sIdx, j % (tStateL3.episodeLengths 0 - 1) < sIdx ∧
          sIdx < tStateL3.episodeLengths 0 ∧
          (rows.get ⟨j, hj⟩).desiredGoal = (tStateL3.buf 0 sIdx).achievedGoal ∧
          (rows.get ⟨j, hj⟩).action =
            (tStateL3.buf 0 (j % (tStateL3.episodeLengths 0 - 1))).action ∧
          (rows.get ⟨j, hj⟩).reward =
            tCR (tStateL3.buf 0
                (j % (tStateL3.episodeLengths 0 - 1))).nextAchievedGoal
              ((tStateL3.buf 0 sIdx).achievedGoal)
              ((tStateL3.buf 0
                (j % (tStateL3.episodeLengths 0 - 1))).info)) :=
  ⟨⟨rfl, rfl, rfl⟩,
    (c2_future_strictly_later tStateL3 tCfgFuture tCR tMG tDrawsC2
      rfl rfl rfl).1 (by decide) (by decide) (by decide)⟩

/-- Splitting a strict bound at its successor: for a duplicate-free list the
count below `P + 1` exceeds the count below `P` by one exactly when `P` is a
member. -/
theorem countP_lt_succ_nodup (W : List Nat) (P : Nat) (hW : W.Nodup) :
    W.countP (fun w => decide (w < P + 1)) =
      W.countP (fun w => decide (w < P)) + (if P ∈ W then 1 else 0) := by
  induction W with
  | nil => rfl
  | cons a t ih =>
    have ht : t.Nodup := (List.nodup_cons.mp hW).2
    have ha : a ∉ t := (List.nodup_cons.mp hW).1
    have hih := ih ht
    by_cases h4 : a = P
    · subst h4
      rw [if_neg ha] at hih
      rw [List.countP_cons_of_pos _ _ (by simp only [decide_eq_true_eq]; omega),
        List.countP_cons_of_neg _ _ (by simp only [decide_eq_true_eq]; omega),
        if_pos (List.mem_cons_self a t), hih]
    · have hmc : (P ∈ a :: t) ↔ (P ∈ t) := by
        constructor
        · intro h
          rcases List.mem_cons.mp h with h | h
          · exact absurd h.symm h4
          · exact h
        · exact fun h => List.mem_cons_of_mem a h
      by_cases h1 : a < P
      · rw [List.countP_cons_of_pos _ _ (by simp only [decide_eq_true_eq]; omega),
          List.countP_cons_of_pos _ _ (by simp only [decide_eq_true_eq]; exact h1),
          hih, if_congr hmc rfl rfl]
        omega
      · rw [List.countP_cons_of_neg _ _ (by simp only [decide_eq_true_eq]; omega),
          List.countP_cons_of_neg _ _ (by simp only [decide_eq_true_eq]; exact h1),
          hih, if_congr hmc rfl rfl]

/-- The boolean keep-mask count: among the indices `0 ≤ i < P*L`, exactly
`count * L` have their replicate index `i / L` in the (duplicate-free) winner
list, where `count` is the number of winners below `P`. -/
theorem countP_div_range (L : Nat) (W : List Nat) (hW : W.Nodup) :
    ∀ P, (List.range (P * L)).countP (fun i => decide (i / L ∈ W)) =
      W.countP (fun w => decide (w < P)) * L := by
  intro P
  induction P with
  | zero => simp
  | succ P ih =>
    rcases Nat.eq_zero_or_pos L with hL | hL
    · subst hL
      simp
    · have hr : List.range ((P + 1) * L) =
          List.range (P * L) ++ (List.range L).map (fun t => P * L + t) := by
        rw [Nat.succ_mul, List.range_add]
      rw [hr, List.countP_append, ih, List.countP_map]
      have hc : ((List.range L).countP
          ((fun i => decide (i / L ∈ W)) ∘ (fun t => P * L + t))) =
          (List.range L).countP (fun t => decide (P ∈ W)) := by
        apply List.countP_congr
        intro t ht
        have htL : t < L := List.mem_range.mp ht
        have hdiv : (P * L + t) / L = P := by
          rw [Nat.add_comm, Nat.mul_comm P L, Nat.add_mul_div_left _ _ hL,
            Nat.div_eq_of_lt htL, Nat.zero_add]
        simp [Function.comp, hdiv]
      rw [hc, countP_lt_succ_nodup W P hW]
      by_cases hm : P ∈ W
      · simp [hm, Nat.add_mul]
      · simp [hm]

/-- Size of the surviving batch after the keep-mask selection: each of the
(duplicate-free, in-range) winning replicates contributes its full block of
`L` consecutive rows. -/
theorem maskKeep_length {O A G I : Type} (rows : List (StoredStep O A G I))
    (L p : Nat) (W : List Nat) (hlen : rows.length = p * L) (hW : W.Nodup)
    (hlt : ∀ w ∈ W, w < p) :
    (maskKeep rows L W).length = W.length * L := by
  rw [maskKeep, List.length_map, ← List.countP_eq_length_filter]
  have henum : rows.enum.countP (fun q => decide (q.1 / L ∈ W)) =
      (List.range rows.length).countP (fun i => decide (i / L ∈ W)) := by
    rw [← List.enum_map_fst rows, List.countP_map]
    rfl
  rw [henum, hlen, countP_div_range L W hW p]
  congr 1
  rw [List.countP_eq_length]
  intro a ha
  simpa using hlt a ha

theorem rewardPerEpisode_length (rw : List ℤ) (P L : Nat) :
    (rewardPerEpisode rw P L).length = P := by
  simp [rewardPerEpisode]

/-- Reading a list back at the index of a member recovers the member. -/
theorem indexOf_getD (R : List ℤ) (v : ℤ) (h : v ∈ R) :
    R.getD (R.indexOf v) 0 = v := by
  have hlt : R.indexOf v < R.length := List.indexOf_lt_length.mpr h
  rw [List.getD_eq_getElem _ _ hlt]
  have := List.indexOf_get hlt
  rwa [List.get_eq_getElem] at this

theorem pySliceLastN_eq_drop {α : Type} (l : List α) (n : Nat) :
    pySliceLastN l n = l.drop (if n = 0 then 0 else l.length - n) := by
  rw [pySliceLastN]
  split
  · simp [*]
  · simp [*]

/-- Every PDS winner index addresses one of the replicates whose sums were
ranked. -/
theorem pdsWinners_mem_lt (R : List ℤ) (n : Nat) :
    ∀ w ∈ pdsWinners R n, w < R.length := by
  intro w hw
  simp only [pdsWinners] at hw
  by_cases hc : n ≤ (List.insertionSort (fun a b : ℤ => a ≤ b) R.dedup).length
  · rw [if_pos hc, pySliceLastN_eq_drop] at hw
    have hw2 := List.mem_of_mem_drop hw
    obtain ⟨v, hv, hvw⟩ := List.mem_map.mp hw2
    have hvR : v ∈ R := List.mem_dedup.mp
      ((List.perm_insertionSort _ _).mem_iff.mp hv)
    rw [← hvw]
    exact List.indexOf_lt_length.mpr hvR
  · rw [if_neg hc, pySliceLastN_eq_drop] at hw
    have hw2 := List.mem_of_mem_drop hw
    rw [argsortQ] at hw2
    have : w ∈ List.range R.length :=
      (List.perm_insertionSort _ _).mem_iff.mp hw2
    exact List.mem_range.mp this

/-- With a positive target `n` not exceeding the replicate count, the winner
list has exactly `n` entries (both in the distinct-rich and in the fallback
branch). -/
theorem pdsWinners_length (R : List ℤ) (n : Nat) (hn : 1 ≤ n)
    (hnl : n ≤ R.length) : (pdsWinners R n).length = n := by
  simp only [pdsWinners]
  by_cases hc : n ≤ (List.insertionSort (fun a b : ℤ => a ≤ b) R.dedup).length
  · rw [if_pos hc, pySliceLastN_eq_drop, if_neg (by omega), List.length_drop,
      List.length_map]
    omega
  · have ha : (argsortQ R).length = R.length := by
      rw [argsortQ, (List.perm_insertionSort _ _).length_eq, List.length_range]
    rw [if_neg hc, pySliceLastN_eq_drop, if_neg (by omega), List.length_drop]
    omega

/-- The winner list never repeats a replicate index. -/
theorem pdsWinners_nodup (R : List ℤ) (n : Nat) : (pdsWinners R n).Nodup := by
  simp only [pdsWinners]
  by_cases hc : n ≤ (List.insertionSort (fun a b : ℤ => a ≤ b) R.dedup).length
  · rw [if_pos hc, pySliceLastN_eq_drop]
    have hnd : (List.insertionSort (fun a b : ℤ => a ≤ b) R.dedup).Nodup :=
      (List.perm_insertionSort _ _).nodup_iff.mpr (List.nodup_dedup R)
    have hmap : ((List.insertionSort (fun a b : ℤ => a ≤ b) R.dedup).map
        (fun v => R.indexOf v)).Nodup := by
      refine List.Nodup.map_on ?_ hnd
      intro x hx y hy hxy
      have hxR : x ∈ R := List.mem_dedup.mp
        ((List.perm_insertionSort _ _).mem_iff.mp hx)
      have hyR : y ∈ R := List.mem_dedup.mp
        ((List.perm_insertionSort _ _).mem_iff.mp hy)
      have h := indexOf_getD R x hxR
      rw [hxy, indexOf_getD R y hyR] at h
      exact h.symm
    exact List.Nodup.sublist (List.drop_sublist _ _) hmap
  · rw [if_neg hc, pySliceLastN_eq_drop]
    have hnd : (argsortQ R).Nodup := by
      rw [argsortQ]
      exact (List.perm_insertionSort _ _).nodup_iff.mpr (List.nodup_range _)
    exact List.Nodup.sublist (List.drop_sublist _ _) hnd

/-- In a sorted duplicate-free list, every element is either in the dropped
suffix or strictly below everything in it. -/
theorem drop_sorted_nodup_dichotomy (u : List ℤ) (k : Nat)
    (hnd : u.Nodup) (hsort : u.Pairwise (fun a b : ℤ => a ≤ b)) :
    ∀ x ∈ u, x ∈ u.drop k ∨ ∀ y ∈ u.drop k, x < y := by
  intro x hx
  by_cases hxd : x ∈ u.drop k
  · exact Or.inl hxd
  · right
    intro y hy
    have hx2 := hx
    rw [← List.take_append_drop k u] at hx2
    have hxt : x ∈ u.take k := by
      rcases List.mem_append.mp hx2 with h | h
      · exact h
      · exact absurd h hxd
    have hsort2 : (u.take k ++ u.drop k).Pairwise (fun a b : ℤ => a ≤ b) := by
      rw [List.take_append_drop]
      exact hsort
    have hpw := (List.pairwise_append.mp hsort2).2.2
    have hle : x ≤ y := hpw x hxt y hy
    have hnd2 : (u.take k ++ u.drop k).Nodup := by
      rw [List.take_append_drop]
      exact hnd
    have hdisj := (List.nodup_append.mp hnd2).2.2
    have hne : x ≠ y := by
      intro hc
      exact hdisj hxt (hc ▸ hy)
    exact lt_of_le_of_ne hle hne

/-- PDS tie-break, distinct-rich branch: when at least `n` distinct sums
exist, the kept sums are pairwise distinct, and every non-winning replicate
either duplicates a kept sum or lies strictly below every kept sum. -/
theorem pdsWinners_distinct (R : List ℤ) (n : Nat)
    (hcd : n ≤ R.dedup.length) :
    ((pdsWinners R n).map (fun w => R.getD w 0)).Nodup ∧
    ∀ i, i < R.length → i ∉ pdsWinners R n →
      (∃ w ∈ pdsWinners R n, R.getD i 0 = R.getD w 0) ∨
      (∀ w ∈ pdsWinners R n, R.getD i 0 < R.getD w 0) := by
  have hlen : (List.insertionSort (fun a b : ℤ => a ≤ b) R.dedup).length =
      R.dedup.length := (List.perm_insertionSort _ _).length_eq
  have hc : n ≤ (List.insertionSort (fun a b : ℤ => a ≤ b) R.dedup).length := by
    omega
  have hnd : (List.insertionSort (fun a b : ℤ => a ≤ b) R.dedup).Nodup :=
    (List.perm_insertionSort _ _).nodup_iff.mpr (List.nodup_dedup R)
  have hsort : (List.insertionSort (fun a b : ℤ => a ≤ b) R.dedup).Pairwise
      (fun a b : ℤ => a ≤ b) := List.sorted_insertionSort _ _
  have humem : ∀ v : ℤ,
      v ∈ List.insertionSort (fun a b : ℤ => a ≤ b) R.dedup ↔ v ∈ R := fun v =>
    Iff.trans (List.perm_insertionSort _ _).mem_iff List.mem_dedup
  have hW : pdsWinners R n =
      ((List.insertionSort (fun a b : ℤ => a ≤ b) R.dedup).drop
        (if n = 0 then 0 else
          (List.insertionSort (fun a b : ℤ => a ≤ b) R.dedup).length - n)).map
        (fun v => R.indexOf v) := by
    simp only [pdsWinners]
    rw [if_pos hc, pySliceLastN_eq_drop, List.length_map, List.map_drop]
  constructor
  · rw [hW, List.map_map]
    have hcongr : ∀ v ∈ (List.insertionSort (fun a b : ℤ => a ≤ b) R.dedup).drop
        (if n = 0 then 0 else
          (List.insertionSort (fun a b : ℤ => a ≤ b) R.dedup).length - n),
        ((fun w => R.getD w 0) ∘ (fun v => R.indexOf v)) v = id v := by
      intro v hv
      have hvR : v ∈ R := (humem v).mp (List.mem_of_mem_drop hv)
      exact indexOf_getD R v hvR
    rw [List.map_congr_left hcongr, List.map_id]
    exact List.Nodup.sublist (List.drop_sublist _ _) hnd
  · intro i hi hiW
    have hxmem : R.getD i 0 ∈ R := by
      rw [List.getD_eq_getElem _ _ hi]
      exact List.getElem_mem hi
    have hxu : R.getD i 0 ∈ List.insertionSort (fun a b : ℤ => a ≤ b) R.dedup :=
      (humem _).mpr hxmem
    rcases drop_sorted_nodup_dichotomy
        (List.insertionSort (fun a b : ℤ => a ≤ b) R.dedup)
        (if n = 0 then 0 else
          (List.insertionSort (fun a b : ℤ => a ≤ b) R.dedup).length - n)
        hnd hsort _ hxu with hdrop | hlt
    · left
      refine ⟨R.indexOf (R.getD i 0), ?_, (indexOf_getD R _ hxmem).symm⟩
      rw [hW]
      exact List.mem_map.mpr ⟨_, hdrop, rfl⟩
    · right
      intro w hw
      rw [hW] at hw
      obtain ⟨v, hv, hvw⟩ := List.mem_map.mp hw
      have hvR : v ∈ R := (humem v).mp (List.mem_of_mem_drop hv)
      rw [← hvw, indexOf_getD R v hvR]
      exact hlt v hv

/-- PDS tie-break, fallback branch: with fewer than `n` distinct sums the
winners are the top of the raw argsort, so every dropped replicate's sum is at
most every kept replicate's sum. -/
theorem pdsWinners_dup (R : List ℤ) (n : Nat)
    (hu : R.dedup.length < n) :
    ∀ i, i < R.length → i ∉ pdsWinners R n →
      ∀ w ∈ pdsWinners R n, R.getD i 0 ≤ R.getD w 0 := by
  have hlen : (List.insertionSort (fun a b : ℤ => a ≤ b) R.dedup).length =
      R.dedup.length := (List.perm_insertionSort _ _).length_eq
  have hc : ¬ (n ≤ (List.insertionSort (fun a b : ℤ => a ≤ b) R.dedup).length) := by
    omega
  have hW : pdsWinners R n = (argsortQ R).drop
      (if n = 0 then 0 else (argsortQ R).length - n) := by
    simp only [pdsWinners]
    rw [if_neg hc, pySliceLastN_eq_drop]
  haveI hTot : IsTotal Nat (fun i j => R.getD i 0 ≤ R.getD j 0) :=
    ⟨fun a b => le_total _ _⟩
  haveI hTrans : IsTrans Nat (fun i j => R.getD i 0 ≤ R.getD j 0) :=
    ⟨fun a b c hab hbc => le_trans hab hbc⟩
  have hsort : (argsortQ R).Pairwise (fun i j => R.getD i 0 ≤ R.getD j 0) := by
    rw [argsortQ]
    exact List.sorted_insertionSort _ _
  intro i hi hiW w hw
  rw [hW] at hiW hw
  have hiarg : i ∈ argsortQ R := by
    rw [argsortQ]
    exact (List.perm_insertionSort _ _).mem_iff.mpr (List.mem_range.mpr hi)
  rw [← List.take_append_drop
    (if n = 0 then 0 else (argsortQ R).length - n) (argsortQ R)] at hiarg
  have hitake : i ∈ (argsortQ R).take
      (if n = 0 then 0 else (argsortQ R).length - n) := by
    rcases List.mem_append.mp hiarg with h | h
    · exact h
    · exact absurd h hiW
  have hsort2 : ((argsortQ R).take
        (if n = 0 then 0 else (argsortQ R).length - n) ++
      (argsortQ R).drop
        (if n = 0 then 0 else (argsortQ R).length - n)).Pairwise
      (fun i j => R.getD i 0 ≤ R.getD j 0) := by
    rw [List.take_append_drop]
    exact hsort
  exact (List.pairwise_append.mp hsort2).2.2 i hitake w hw

/-- The PAST_DESIRED_SUCCESS offline run with the attribute set, a positive
target below the preselection count and a non-empty stored episode: both
count assertions pass and the run returns the keep-mask selection of the
assembled batch, sized `episode_length * n_sampled_goal`. -/
theorem offline_run_PDS {O A G I : Type} (s : HerState O A G I)
    (cfg : HerConfig) (cR : G → G → I → ℤ) (mG : G → G → I → G) (d : Draws G)
    (p : Nat)
    (hpds : cfg.strategy = .pastDesiredSuccess)
    (hattr : cfg.nSampledGoalPreselection = some p)
    (hn : 1 ≤ cfg.nSampledGoal) (hnp : cfg.nSampledGoal < p)
    (hL : 1 ≤ s.episodeLengths 0) :
    sampleOffline s cfg cR mG d =
      .ok (maskKeep (offlineAssembled cfg cR mG s d p (s.episodeLengths 0))
        (s.episodeLengths 0)
        (pdsWinners (rewardPerEpisode
          ((offlineAssembled cfg cR mG s d p (s.episodeLengths 0)).map
            (fun r => r.reward)) p (s.episodeLengths 0)) cfg.nSampledGoal)) ∧
    (maskKeep (offlineAssembled cfg cR mG s d p (s.episodeLengths 0))
      (s.episodeLengths 0)
      (pdsWinners (rewardPerEpisode
        ((offlineAssembled cfg cR mG s d p (s.episodeLengths 0)).map
          (fun r => r.reward)) p (s.episodeLengths 0))
        cfg.nSampledGoal)).length =
      s.episodeLengths 0 * cfg.nSampledGoal := by
  have hnf : cfg.strategy ≠ .future := by simp [hpds]
  have hlen0 : offlineLen0 cfg s = s.episodeLengths 0 := by
    rw [offlineLen0, if_neg hnf]
  have hres : resolvePreselection cfg cfg.nSampledGoal = .ok p := by
    simp [resolvePreselection, hpds, hattr]
  have hNE : 0 < s.episodeLengths 0 * p := Nat.mul_pos (by omega) (by omega)
  have hfut : cfg.strategy = .future → 2 ≤ s.episodeLengths 0 := fun hf =>
    absurd hf hnf
  have hAlen : (offlineAssembled cfg cR mG s d p (s.episodeLengths 0)).length =
      p * s.episodeLengths 0 := offlineAssembled_length cfg cR mG s d p _
  have hRlen : (rewardPerEpisode ((offlineAssembled cfg cR mG s d p
      (s.episodeLengths 0)).map (fun r => r.reward)) p
      (s.episodeLengths 0)).length = p := rewardPerEpisode_length _ _ _
  have hWlen : (pdsWinners (rewardPerEpisode
      ((offlineAssembled cfg cR mG s d p (s.episodeLengths 0)).map
        (fun r => r.reward)) p (s.episodeLengths 0))
      cfg.nSampledGoal).length = cfg.nSampledGoal :=
    pdsWinners_length _ _ hn (by rw [hRlen]; omega)
  have hWlt : ∀ w ∈ pdsWinners (rewardPerEpisode
      ((offlineAssembled cfg cR mG s d p (s.episodeLengths 0)).map
        (fun r => r.reward)) p (s.episodeLengths 0)) cfg.nSampledGoal,
      w < p := by
    intro w hw
    rw [← hRlen]
    exact pdsWinners_mem_lt _ _ w hw
  have hmk : (maskKeep (offlineAssembled cfg cR mG s d p (s.episodeLengths 0))
      (s.episodeLengths 0)
      (pdsWinners (rewardPerEpisode
        ((offlineAssembled cfg cR mG s d p (s.episodeLengths 0)).map
          (fun r => r.reward)) p (s.episodeLengths 0))
        cfg.nSampledGoal)).length =
      cfg.nSampledGoal * s.episodeLengths 0 := by
    rw [maskKeep_length _ _ p _ hAlen (pdsWinners_nodup _ _) hWlt, hWlen]
  constructor
  · rw [offline_run_eq s cfg cR mG d p hres hNE hfut, hlen0]
    have hc1 : checkCounts1 cfg.strategy (some (s.episodeLengths 0)) (some p)
        (offlineAssembled cfg cR mG s d p (s.episodeLengths 0)).length =
        .ok () := by
      rw [hAlen]
      simp only [checkCounts1]
      rw [if_neg hnf, if_pos (Nat.mul_comm p (s.episodeLengths 0))]
    have hsel : selectStage cfg (some (s.episodeLengths 0)) (some p)
        (some cfg.nSampledGoal)
        (offlineAssembled cfg cR mG s d p (s.episodeLengths 0)) =
        .ok (maskKeep (offlineAssembled cfg cR mG s d p (s.episodeLengths 0))
          (s.episodeLengths 0)
          (pdsWinners (rewardPerEpisode
            ((offlineAssembled cfg cR mG s d p (s.episodeLengths 0)).map
              (fun r => r.reward)) p (s.episodeLengths 0))
            cfg.nSampledGoal)) := by
      simp only [selectStage]
      rw [if_pos hpds, if_pos hnp,
        if_pos (by rw [hAlen, Nat.mul_comm] : (offlineAssembled cfg cR mG s d p
          (s.episodeLengths 0)).length = s.episodeLengths 0 * p)]
    have hc2 : checkCounts2 cfg.strategy (some (s.episodeLengths 0))
        (some cfg.nSampledGoal)
        (maskKeep (offlineAssembled cfg cR mG s d p (s.episodeLengths 0))
          (s.episodeLengths 0)
          (pdsWinners (rewardPerEpisode
            ((offlineAssembled cfg cR mG s d p (s.episodeLengths 0)).map
              (fun r => r.reward)) p (s.episodeLengths 0))
            cfg.nSampledGoal)).length = .ok () := by
      rw [hmk]
      simp only [checkCounts2]
      rw [if_neg hnf,
        if_pos (Nat.mul_comm cfg.nSampledGoal (s.episodeLengths 0))]
    simp only [hc1, hsel, hc2]
  · rw [hmk, Nat.mul_comm]

/-- C5 (amended): in every offline sampling run with `n_sampled_goal ≥ 1`
whose configuration passes the preselection check (and with a non-degenerate
stored episode), the transition count after the relabeling stage equals
`episode_length * n_sampled_goal_preselection` — with `episode_length`
replaced by `episode_length - 1` under FUTURE — so the first count assertion
returns normally; and the run completes with a batch of
`episode_length * n_sampled_goal` transitions on which the post-selection
count assertion also returns normally: the fatal error branches are
unreachable.  (`n_sampled_goal = 0` breaks this, see the counterexample.) -/
theorem c5_count_invariants {O A G I : Type} (s : HerState O A G I)
    (cfg : HerConfig) (cR : G → G → I → ℤ) (mG : G → G → I → G) (d : Draws G)
    (p : Nat)
    (hres : resolvePreselection cfg cfg.nSampledGoal = .ok p)
    (hn : 1 ≤ cfg.nSampledGoal)
    (hpds : cfg.strategy = .pastDesiredSuccess → cfg.nSampledGoal < p)
    (hL : 1 ≤ s.episodeLengths 0)
    (hfut : cfg.strategy = .future → 2 ≤ s.episodeLengths 0) :
    checkCounts1 cfg.strategy (some (s.episodeLengths 0)) (some p)
      (offlineAssembled cfg cR mG s d p (offlineLen0 cfg s)).length = .ok () ∧
    ∃ rows, sampleOffline s cfg cR mG d = .ok rows ∧
      rows.length = offlineLen0 cfg s * cfg.nSampledGoal ∧
      checkCounts2 cfg.strategy (some (s.episodeLengths 0))
        (some cfg.nSampledGoal) rows.length = .ok () := by
  constructor
  · rw [offlineAssembled_length]
    simp only [checkCounts1]
    by_cases hf : cfg.strategy = .future
    · rw [if_pos hf, if_pos]
      rw [offlineLen0, if_pos hf, Nat.mul_comm]
    · rw [if_neg hf, if_pos]
      rw [offlineLen0, if_neg hf, Nat.mul_comm]
  · by_cases hp : cfg.strategy = .pastDesiredSuccess
    · have hnf : cfg.strategy ≠ .future := by simp [hp]
      have hattr : cfg.nSampledGoalPreselection = some p := by
        simp only [resolvePreselection] at hres
        rw [if_pos hp] at hres
        cases hA : cfg.nSampledGoalPreselection with
        | none =>
          rw [hA] at hres
          exact absurd hres (by simp)
        | some q =>
          rw [hA] at hres
          simp at hres
          rw [hres]
      obtain ⟨hrun, hlen⟩ :=
        offline_run_PDS s cfg cR mG d p hp hattr hn (hpds hp) hL
      have hlen0 : offlineLen0 cfg s = s.episodeLengths 0 := by
        rw [offlineLen0, if_neg hnf]
      refine ⟨_, hrun, ?_, ?_⟩
      · rw [hlen, hlen0]
      · rw [hlen]
        simp only [checkCounts2]
        rw [if_neg hnf]
        simp
    · have hand : cfg.nSampledGoalPreselection = none ∧ cfg.nSampledGoal = p := by
        simp only [resolvePreselection] at hres
        rw [if_neg hp] at hres
        cases hA : cfg.nSampledGoalPreselection with
        | none =>
          rw [hA] at hres
          simp at hres
          exact ⟨rfl, hres⟩
        | some q =>
          rw [hA] at hres
          exact absurd hres (by simp)
      have hNE : 0 < s.episodeLengths 0 * cfg.nSampledGoal :=
        Nat.mul_pos hL hn
      have hrun := offline_run_nonPDS s cfg cR mG d hp hand.1 hNE hfut
      refine ⟨_, hrun, ?_, ?_⟩
      · rw [offlineAssembled_length, Nat.mul_comm]
      · rw [offlineAssembled_length]
        simp only [checkCounts2]
        by_cases hf : cfg.strategy = .future
        · rw [if_pos hf, if_pos]
          rw [offlineLen0, if_pos hf, Nat.mul_comm]
        · rw [if_neg hf, if_pos]
          rw [offlineLen0, if_neg hf, Nat.mul_comm]

/-- Counterexample for C5 as stated: `n_sampled_goal = 0` is a reachable
offline configuration (PDS, preselection 1, stored episode of length 1) that
passes the preselection check, yet the post-selection count assertion fails
fatally — the Python slice `[-0:]` keeps every ranked replicate instead of
none. -/
theorem c5_counterexample :
    resolvePreselection tCfgPDS0 tCfgPDS0.nSampledGoal = .ok 1 ∧
    sampleOffline tStateL1 tCfgPDS0 tCR tMG tDraws =
      .error (.assertionError "transition count after selection") := by
  constructor
  · rfl
  · decide

/-- Witness for C5 at a concrete PDS input. -/
theorem c5_witness :
    (resolvePreselection tCfgPDS tCfgPDS.nSampledGoal = .ok 2 ∧
      1 ≤ tCfgPDS.nSampledGoal ∧ 1 ≤ tStateL3.episodeLengths 0) ∧
    (checkCounts1 tCfgPDS.strategy (some (tStateL3.episodeLengths 0)) (some 2)
        (offlineAssembled tCfgPDS tCR tMG tStateL3 tDraws 2
          (offlineLen0 tCfgPDS tStateL3)).length = .ok () ∧
      ∃ rows, sampleOffline tStateL3 tCfgPDS tCR tMG tDraws = .ok rows ∧
        rows.length = offlineLen0 tCfgPDS tStateL3 * tCfgPDS.nSampledGoal ∧
        checkCounts2 tCfgPDS.strategy (some (tStateL3.episodeLengths 0))
          (some tCfgPDS.nSampledGoal) rows.length = .ok ()) :=
  ⟨⟨rfl, by decide, by decide⟩,
    c5_count_invariants tStateL3 tCfgPDS tCR tMG tDraws 2 rfl (by decide)
      (by decide) (by decide) (by decide)⟩

/-- C3 (amended): under PAST_DESIRED_SUCCESS in offline sampling with
preselection count `P` and target `1 ≤ n < P`, exactly `n` replicate-episodes
survive the selection step, each contributing `episode_length` transitions;
the kept replicates are the winner indices computed from the per-replicate
summed rewards by the tie-break rule: when at least `n` distinct sums exist
the kept sums are pairwise distinct and every dropped replicate either
duplicates a kept sum or lies strictly below all of them, else (fewer than `n`
distinct sums) the top `n` by raw summed reward including duplicates are kept,
so every dropped sum is at most every kept sum.  (The target `n = 0` breaks
the count, see the counterexample.) -/
theorem c3_pds_selection {O A G I : Type} (s : HerState O A G I)
    (cfg : HerConfig) (cR : G → G → I → ℤ) (mG : G → G → I → G) (d : Draws G)
    (p : Nat) (R : List ℤ) (W : List Nat)
    (hpds : cfg.strategy = .pastDesiredSuccess)
    (hattr : cfg.nSampledGoalPreselection = some p)
    (hn : 1 ≤ cfg.nSampledGoal) (hnp : cfg.nSampledGoal < p)
    (hL : 1 ≤ s.episodeLengths 0)
    (hR : R = rewardPerEpisode
      ((offlineAssembled cfg cR mG s d p (s.episodeLengths 0)).map
        (fun r => r.reward)) p (s.episodeLengths 0))
    (hW : W = pdsWinners R cfg.nSampledGoal) :
    sampleOffline s cfg cR mG d =
      .ok (maskKeep (offlineAssembled cfg cR mG s d p (s.episodeLengths 0))
        (s.episodeLengths 0) W) ∧
    W.length = cfg.nSampledGoal ∧
    (maskKeep (offlineAssembled cfg cR mG s d p (s.episodeLengths 0))
      (s.episodeLengths 0) W).length =
      cfg.nSampledGoal * s.episodeLengths 0 ∧
    (cfg.nSampledGoal ≤ R.dedup.length →
      ((W.map (fun w => R.getD w 0)).Nodup ∧
       ∀ i, i < p → i ∉ W →
         (∃ w ∈ W, R.getD i 0 = R.getD w 0) ∨
         (∀ w ∈ W, R.getD i 0 < R.getD w 0))) ∧
    (R.dedup.length < cfg.nSampledGoal →
      ∀ i, i < p → i ∉ W → ∀ w ∈ W, R.getD i 0 ≤ R.getD w 0) := by
  subst hR
  subst hW
  have hRlen : (rewardPerEpisode
      ((offlineAssembled cfg cR mG s d p (s.episodeLengths 0)).map
        (fun r => r.reward)) p (s.episodeLengths 0)).length = p :=
    rewardPerEpisode_length _ _ _
  obtain ⟨hrun, hlen⟩ := offline_run_PDS s cfg cR mG d p hpds hattr hn hnp hL
  refine ⟨hrun, ?_, ?_, ?_, ?_⟩
  · exact pdsWinners_length _ _ hn (by rw [hRlen]; omega)
  · rw [hlen, Nat.mul_comm]
  · intro hcd
    obtain ⟨h1, h2⟩ := pdsWinners_distinct _ cfg.nSampledGoal hcd
    refine ⟨h1, ?_⟩
    intro i hi hiW
    exact h2 i (by rw [hRlen]; exact hi) hiW
  · intro hcd i hi hiW
    exact pdsWinners_dup _ _ hcd i (by rw [hRlen]; exact hi) hiW

/-- Counterexample for C3 as stated: with target `n_sampled_goal = 0` and
preselection `P = 1 > 0`, the selection stage keeps one full replicate
instead of zero — `winner_episodes = unique_indices[-0:]` is the whole
first-occurrence index list, so the keep-mask retains every row. -/
theorem c3_counterexample :
    selectStage tCfgPDS0 (some 1) (some 1) (some 0) [tStep] = .ok [tStep] ∧
    tCfgPDS0.nSampledGoal = 0 := by
  constructor
  · decide
  · rfl

/-- Witness for C3 at a concrete PDS input. -/
theorem c3_witness :
    (tCfgPDS.strategy = .pastDesiredSuccess ∧
      tCfgPDS.nSampledGoal < 2 ∧ 1 ≤ tStateL3.episodeLengths 0) ∧
    (sampleOffline tStateL3 tCfgPDS tCR tMG tDraws =
        .ok (maskKeep (offlineAssembled tCfgPDS tCR tMG tStateL3 tDraws 2
          (tStateL3.episodeLengths 0)) (tStateL3.episodeLengths 0) tW3) ∧
      tW3.length = tCfgPDS.nSampledGoal ∧
      (maskKeep (offlineAssembled tCfgPDS tCR tMG tStateL3 tDraws 2
        (tStateL3.episodeLengths 0)) (tStateL3.episodeLengths 0) tW3).length =
        tCfgPDS.nSampledGoal * tStateL3.episodeLengths 0 ∧
      (tCfgPDS.nSampledGoal ≤ tR3.dedup.length →
        ((tW3.map (fun w => tR3.getD w 0)).Nodup ∧
         ∀ i, i < 2 → i ∉ tW3 →
           (∃ w ∈ tW3, tR3.getD i 0 = tR3.getD w 0) ∨
           (∀ w ∈ tW3, tR3.getD i 0 < tR3.getD w 0))) ∧
      (tR3.dedup.length < tCfgPDS.nSampledGoal →
        ∀ i, i < 2 → i ∉ tW3 → ∀ w ∈ tW3, tR3.getD i 0 ≤ tR3.getD w 0)) :=
  ⟨⟨rfl, by decide, by decide⟩,
    c3_pds_selection tStateL3 tCfgPDS tCR tMG tDraws 2 tR3 tW3 rfl rfl
      (by decide) (by decide) (by decide) rfl rfl⟩

end HerSpec
